import Mathlib

/-!
# Aptos deposit scan of the payment gateway

A shallow embedding of `model/service/task_service_aptos.go` (`AptosApiScan`) and of
`task/listen_aptos_job.go` (`ListenAptosJob.Run`).

* Go strings are Lean strings, `int64` values are integers.
* A `float64` amount is the rational number it denotes; the rounding performed by
  `Decimal.InexactFloat64` is a parameter (`GoLib.InexactFloat64`).
* Functions of the Go standard library that rest on Unicode tables, on the time parser or on
  float formatting are fields of `GoLib`; the order store, the wallet store and the clock
  are fields of `Env`, over an explicit state `σ`.
* A scan returns the calls it issued (`Effect`), the log lines, the final store state and
  the fault that interrupted it, if any.
* The scans of one run of the job are goroutines: the same scan written call by call
  (`scanProg`), stepped in any interleaving a schedule gives.
-/

namespace Aptos

/-! ## Constants and the decoded response -/

def AptosGraphqlUrl : String := "https://api.mainnet.aptoslabs.com/v1/graphql"

def AptosAssetType : String :=
  "0x357b0b74bc833e95a115ad22604854d6b0fca151cecd94111770e5d6ffc9dc2b"

/-- One element of `fungible_asset_activities`; `Type_` is the field `Type` (`type`). -/
structure Activity where
  Amount : Int
  AssetType : String
  IsTransactionSuccess : Bool
  Type_ : String
  OwnerAddress : String
deriving DecidableEq, Repr

/-- One element of `account_transactions`; `Timestamp` is `user_transaction.timestamp`. -/
structure AccountTransaction where
  TransactionVersion : Int
  FungibleAssetActivities : List Activity
  Timestamp : String
deriving DecidableEq, Repr

/-- The decoded GraphQL response (`data.account_transactions`). -/
structure aptosGraphqlResp where
  AccountTransactions : List AccountTransaction
deriving DecidableEq, Repr

/-! ## The decimal library (`github.com/shopspring/decimal`)

The library is a dependency, not part of the repository.  The three operations the scan uses
are written after the library: a decimal is `value * 10 ^ exp`, `Div` is `DivRound` with
`DivisionPrecision = 16`, and `QuoRem` divides the scaled big integers with truncation. -/

structure Decimal where
  value : Int
  exp : Int
deriving DecidableEq, Repr

namespace Decimal

/-- The rational number a decimal denotes. -/
def toRat (d : Decimal) : ℚ :=
  if 0 ≤ d.exp then mkRat (d.value * 10 ^ d.exp.toNat) 1
  else mkRat d.value (10 ^ (-d.exp).toNat)

def DivisionPrecision : Int := 16

def NewFromInt (a : Int) : Decimal := ⟨a, 0⟩

def New (value : Int) (exp : Int) : Decimal := ⟨value, exp⟩

def MaxInt32 : Int := 2147483647

def MinInt32 : Int := -2147483648

/-- Brings two decimals to the smaller exponent (`RescalePair`). -/
def RescalePair (d1 d2 : Decimal) : Decimal × Decimal :=
  if d1.exp < d2.exp then (d1, ⟨d2.value * 10 ^ (d2.exp - d1.exp).toNat, d1.exp⟩)
  else if d2.exp < d1.exp then (⟨d1.value * 10 ^ (d1.exp - d2.exp).toNat, d2.exp⟩, d2)
  else (d1, d2)

def Add (d d2 : Decimal) : Decimal :=
  let p := RescalePair d d2
  ⟨p.1.value + p.2.value, p.1.exp⟩

def Sub (d d2 : Decimal) : Decimal :=
  let p := RescalePair d d2
  ⟨p.1.value - p.2.value, p.1.exp⟩

def Abs (d : Decimal) : Decimal := ⟨d.value.natAbs, d.exp⟩

/-- Three-way comparison: `-1`, `0` or `1`. -/
def Cmp (d d2 : Decimal) : Int :=
  let p := RescalePair d d2
  if p.1.value < p.2.value then -1 else if p.1.value = p.2.value then 0 else 1

/-- Quotient and remainder at the given precision; `none` is the panic of the library
(division by zero, or an exponent outside `int32`). -/
def QuoRem (d d2 : Decimal) (precision : Int) : Option (Decimal × Decimal) :=
  if d2.value = 0 then none
  else
    let scale := -precision
    let e := d.exp - d2.exp - scale
    if e > MaxInt32 ∨ e < MinInt32 then none
    else
      let aa := if e < 0 then d.value else d.value * 10 ^ e.toNat
      let bb := if e < 0 then d2.value * 10 ^ (-e).toNat else d2.value
      let scalerest := if e < 0 then d.exp else scale + d2.exp
      some (⟨Int.tdiv aa bb, scale⟩, ⟨Int.tmod aa bb, scalerest⟩)

/-- Division rounded half away from zero at the given precision. -/
def DivRound (d d2 : Decimal) (precision : Int) : Option Decimal :=
  match QuoRem d d2 precision with
  | none => none
  | some (q, r) =>
    let r2 : Decimal := ⟨2 * r.value.natAbs, r.exp + precision⟩
    let c := Cmp r2 (Abs d2)
    if c < 0 then some q
    else if d.value.sign * d2.value.sign < 0 then some (Sub q (New 1 (-precision)))
    else some (Add q (New 1 (-precision)))

def Div (d d2 : Decimal) : Option Decimal := DivRound d d2 DivisionPrecision

end Decimal

/-- The divisor `decimal.NewFromFloat(1000000)`: the shortest decimal form of the float,
digit `1` with exponent `6`. -/
def decimalDivisor : Decimal := ⟨1, 6⟩

/-- The decimal amount of an activity: `decimal.NewFromInt(act.Amount).Div(decimalDivisor)`. -/
def amountDecimal (a : Int) : Option Decimal :=
  Decimal.Div (Decimal.NewFromInt a) decimalDivisor

/-! ## Library functions taken as parameters -/

/-- Functions of the Go standard library and of the decimal library that the scan calls
and that are not defined in the repository. -/
structure GoLib where
  /-- The function `strings.EqualFold`. -/
  EqualFold : String → String → Bool
  /-- The function `strings.ToLower`. -/
  ToLower : String → String
  /-- The call `time.Parse(layout, value)` followed by `.UTC().UnixNano()`: the parsed
  instant in nanoseconds, or the parse error. -/
  timeParse : String → String → Except String Int
  /-- The method `Decimal.InexactFloat64`, the float as the rational it denotes. -/
  InexactFloat64 : Decimal → ℚ
  /-- The verb `%f` of `fmt.Sprintf` on a float. -/
  fmtFloat : ℚ → String

/-- Whether `sub` occurs in `s` (`strings.Contains`), on character lists. -/
def containsChars (sub : List Char) : List Char → Bool
  | [] => sub.isPrefixOf []
  | c :: cs => sub.isPrefixOf (c :: cs) || containsChars sub cs

def stringsContains (s substr : String) : Bool := containsChars substr.data s.data

/-- The layout constant `time.RFC3339Nano`. -/
def RFC3339Nano : String := "2006-01-02T15:04:05.999999999Z07:00"

/-- The first layout the scan tries. -/
def microLayout : String := "2006-01-02T15:04:05.999999"

/-- The constant `int64(time.Millisecond)`. -/
def Millisecond : Int := 1000000

/-! ## Orders, requests and the external world -/

/-- A `carbon` time value, given by what the scan reads from it. -/
structure CarbonTime where
  TimestampWithMillisecond : Int
  ToDateTimeString : String
deriving DecidableEq, Repr

inductive OrderStatus where
  | pending
  | settled
  | expired
deriving DecidableEq, Repr

/-- Modelled from the spec: the order record (`mdb.Orders`), whose declaration is outside the
given sources. The fields are those the scan reads (`TradeId`, `OrderId`, `Amount`,
`ActualAmount`, `CreatedAt`) and those of the Order of the data model (`Token`, `Status`). -/
structure Order where
  TradeId : String
  OrderId : String
  Amount : ℚ
  ActualAmount : ℚ
  Token : String
  Status : OrderStatus
  CreatedAt : CarbonTime
deriving DecidableEq, Repr

/-- The request built by the scan (`request.OrderProcessingRequest`). -/
structure OrderProcessingRequest where
  TokenWithChainPrefix : String
  TradeId : String
  Amount : ℚ
  BlockTransactionId : String
deriving DecidableEq, Repr

/-- One element of the wallet list (`mdb.WalletAddress`); the job reads `Token`. -/
structure WalletAddress where
  Token : String
deriving DecidableEq, Repr

/-- The stores and the clock, over a state `σ`. Reads do not change the state; the only
writer is `OrderProcessing`, which returns its error (if any) and the new state. -/
structure Env (σ : Type) where
  IsWalletLocked : σ → String → Bool
  GetTradeIdByWalletAddressAndAmount : σ → String → ℚ → Except String String
  GetOrderInfoByTradeId : σ → String → Except String Order
  OrderProcessing : σ → OrderProcessingRequest → Option String × σ
  /-- The call `carbon.Now()`. -/
  Now : σ → CarbonTime
  /-- The constant `model.ChainNameAptos`. -/
  ChainNameAptos : String
  GetAvailableWallet : σ → String → Except String (List WalletAddress)

/-- What the HTTP client returns for the POST: a transport error, or a status code with the
body as `json.Unmarshal` decodes it. -/
inductive HttpResult where
  | err (e : String)
  | resp (statusCode : Int) (body : Except String aptosGraphqlResp)

/-- The value a panic carries: an error, or the status code of `panic(resp.StatusCode())`. -/
inductive Fault where
  | error (e : String)
  | status (code : Int)
deriving DecidableEq, Repr

def Fault.render : Fault → String
  | .error e => e
  | .status code => toString code

/-- A call the scan issues to a collaborator. `orderProcessing` also records the error the
call returned. -/
inductive Effect where
  | post (url : String) (address : String)
  | lookup (wallet : String) (amount : ℚ)
  | getOrder (tradeId : String)
  | orderProcessing (req : OrderProcessingRequest) (err : Option String)
  | enqueue (order : Order) (maxRetry : Nat)
  | notify (msg : String)
deriving DecidableEq, Repr

/-- The result of a piece of the scan. -/
structure Res (σ : Type) where
  trace : List Effect
  logs : List String
  st : σ
  fault : Option Fault

/-- Sequencing: a fault stops the run, otherwise the next piece runs from the new state. -/
def Res.andThen {σ : Type} (r : Res σ) (k : σ → Res σ) : Res σ :=
  match r.fault with
  | some _ => r
  | none =>
    let r2 := k r.st
    ⟨r.trace ++ r2.trace, r.logs ++ r2.logs, r2.st, r2.fault⟩

/-! ## The scan -/

section Scan

variable {σ : Type}

/-- The verb `%d` of `fmt.Sprintf` on an `int64`. -/
def fmtInt (i : Int) : String := toString i

/-- The message `fmt.Sprintf(msgTpl, ...)` sent to the bot. -/
def notifyMessage (lib : GoLib) (order : Order) (tokenWithChainPrefix : String)
    (now : CarbonTime) (version : Int) : String :=
  "\n<b>📢📢 有新的 Aptos 交易支付成功！</b>\n<pre>交易号：" ++ order.TradeId
    ++ "</pre>\n<pre>订单号：" ++ order.OrderId
    ++ "</pre>\n<pre>请求支付金额：" ++ lib.fmtFloat order.Amount
    ++ " cny</pre>\n<pre>实际支付金额：" ++ lib.fmtFloat order.ActualAmount
    ++ " token</pre>\n<pre>钱包地址：" ++ tokenWithChainPrefix
    ++ "</pre>\n<pre>订单创建时间：" ++ order.CreatedAt.ToDateTimeString
    ++ "</pre>\n<pre>支付成功时间：" ++ now.ToDateTimeString
    ++ "</pre>\n<pre>aptos_tx_version: " ++ fmtInt version ++ "</pre>\n"

/-- The four filters at the head of the activity loop, in the order of the source. -/
def passesFilters (lib : GoLib) (token : String) (act : Activity) : Bool :=
  act.IsTransactionSuccess
    && lib.EqualFold act.AssetType AptosAssetType
    && stringsContains (lib.ToLower act.Type_) "::deposit"
    && lib.EqualFold act.OwnerAddress token

/-- The body of the activity loop: one activity of a transaction whose timestamp parsed to
`txTimestampMillis`, run from the state `st`. A `continue` is a result without fault. -/
def scanActivity (lib : GoLib) (env : Env σ) (token : String) (tx : AccountTransaction)
    (txTimestampMillis : Int) (st : σ) (act : Activity) : Res σ :=
  let tokenWithChainPrefix := "aptos:" ++ token
  if !act.IsTransactionSuccess then ⟨[], [], st, none⟩
  else if !lib.EqualFold act.AssetType AptosAssetType then ⟨[], [], st, none⟩
  else if !stringsContains (lib.ToLower act.Type_) "::deposit" then ⟨[], [], st, none⟩
  else if !lib.EqualFold act.OwnerAddress token then ⟨[], [], st, none⟩
  else
    match amountDecimal act.Amount with
    | none => ⟨[], [], st, some (.error "decimal division")⟩
    | some amountDec =>
      let amount := lib.InexactFloat64 amountDec
      let lookup := Effect.lookup tokenWithChainPrefix amount
      match env.GetTradeIdByWalletAddressAndAmount st tokenWithChainPrefix amount with
      | .error e => ⟨[lookup], [], st, some (.error e)⟩
      | .ok tradeId =>
        if tradeId = "" then ⟨[lookup], [], st, none⟩
        else
          match env.GetOrderInfoByTradeId st tradeId with
          | .error e => ⟨[lookup, .getOrder tradeId], [], st, some (.error e)⟩
          | .ok order =>
            let createTime := order.CreatedAt.TimestampWithMillisecond
            if txTimestampMillis < createTime then
              ⟨[lookup, .getOrder tradeId],
                ["Orders cannot actually be matched: " ++ tradeId ++ " <-> aptos_tx_version:"
                  ++ fmtInt tx.TransactionVersion], st, none⟩
            else
              let req : OrderProcessingRequest :=
                { TokenWithChainPrefix := tokenWithChainPrefix
                  TradeId := tradeId
                  Amount := amount
                  BlockTransactionId := fmtInt tx.TransactionVersion }
              match env.OrderProcessing st req with
              | (some e, st1) =>
                ⟨[lookup, .getOrder tradeId, .orderProcessing req (some e)], [], st1,
                  some (.error e)⟩
              | (none, st1) =>
                ⟨[lookup, .getOrder tradeId, .orderProcessing req none, .enqueue order 5,
                    .notify (notifyMessage lib order tokenWithChainPrefix (env.Now st1)
                      tx.TransactionVersion)], [], st1, none⟩

/-- The loop over the activities of one transaction. -/
def scanActivities (lib : GoLib) (env : Env σ) (token : String) (tx : AccountTransaction)
    (txTimestampMillis : Int) : σ → List Activity → Res σ
  | st, [] => ⟨[], [], st, none⟩
  | st, act :: rest =>
    (scanActivity lib env token tx txTimestampMillis st act).andThen
      (fun st1 => scanActivities lib env token tx txTimestampMillis st1 rest)

/-- The timestamp of a transaction in UTC milliseconds: the two layouts are tried in order;
an empty or unparsable timestamp gives the log line of the skip (none for an empty one). -/
def parseTimestamp (lib : GoLib) (tx : AccountTransaction) : Except (List String) Int :=
  if tx.Timestamp ≠ "" then
    match lib.timeParse microLayout tx.Timestamp with
    | .ok parsed => .ok (Int.tdiv parsed Millisecond)
    | .error _ =>
      match lib.timeParse RFC3339Nano tx.Timestamp with
      | .ok parsed => .ok (Int.tdiv parsed Millisecond)
      | .error perr =>
        .error ["AptosCallBack: failed to parse timestamp " ++ tx.Timestamp ++ ": " ++ perr]
  else .error []

/-- The body of the transaction loop. -/
def scanTransaction (lib : GoLib) (env : Env σ) (token : String) (st : σ)
    (tx : AccountTransaction) : Res σ :=
  match parseTimestamp lib tx with
  | .error logs => ⟨[], logs, st, none⟩
  | .ok txTimestampMillis =>
    scanActivities lib env token tx txTimestampMillis st tx.FungibleAssetActivities

/-- The loop over the transactions of the response. -/
def scanTransactions (lib : GoLib) (env : Env σ) (token : String) :
    σ → List AccountTransaction → Res σ
  | st, [] => ⟨[], [], st, none⟩
  | st, tx :: rest =>
    (scanTransaction lib env token st tx).andThen
      (fun st1 => scanTransactions lib env token st1 rest)

/-- The body of `AptosApiScan` below its two deferred calls. -/
def scanBody (lib : GoLib) (env : Env σ) (st : σ) (token : String) (http : HttpResult) :
    Res σ :=
  let tokenWithChainPrefix := "aptos:" ++ token
  if !env.IsWalletLocked st tokenWithChainPrefix then ⟨[], [], st, none⟩
  else
    let post := Effect.post AptosGraphqlUrl token
    match http with
    | .err e => ⟨[post], [], st, some (.error e)⟩
    | .resp statusCode body =>
      if statusCode ≠ 200 then ⟨[post], [], st, some (.status statusCode)⟩
      else
        match body with
        | .error e => ⟨[post], [], st, some (.error e)⟩
        | .ok gqlResp =>
          if gqlResp.AccountTransactions.length = 0 then ⟨[post], [], st, none⟩
          else
            let r := scanTransactions lib env token st gqlResp.AccountTransactions
            ⟨post :: r.trace, r.logs, r.st, r.fault⟩

/-- What one call of `AptosApiScan` leaves behind. `recovered` is the fault the deferred
`recover` caught, `propagated` the fault that leaves the function, `done` the number of
`wg.Done()` calls. -/
structure ScanResult (σ : Type) where
  trace : List Effect
  logs : List String
  st : σ
  recovered : Option Fault
  propagated : Option Fault
  done : Nat

/-- The function `AptosApiScan`: the body, then the deferred functions in reverse order of
their registration: the `recover` closure logs a fault and clears it, then `wg.Done()`. -/
def AptosApiScan (lib : GoLib) (env : Env σ) (st : σ) (token : String) (http : HttpResult) :
    ScanResult σ :=
  let r := scanBody lib env st token http
  let logs := match r.fault with
    | some f => r.logs ++ ["AptosCallBack: " ++ f.render]
    | none => r.logs
  let panicking : Option Fault := match r.fault with
    | some _ => none
    | none => none
  { trace := r.trace, logs := logs, st := r.st, recovered := r.fault,
    propagated := panicking, done := 1 }

/-! ## The scan as a goroutine

The job starts every scan with `go` before any of them has finished, so the scans of one run
interleave. A goroutine is the scan between two calls to a collaborator; one step of a
goroutine is one such call, carried out on the state of the stores at that moment. -/

end Scan

/-! ## A concrete library and a store as explicit state -/

/-- The verb `%f` on a float given as a rational: six decimals, rounded half to even. -/
def fmtFloat6 (q : ℚ) : String :=
  let n := q.num.natAbs * 1000000
  let fl := n / q.den
  let rem := n % q.den
  let r := if 2 * rem > q.den then fl + 1 else if 2 * rem = q.den then fl + fl % 2 else fl
  let frac := toString (r % 1000000)
  (if q.num < 0 then "-" else "") ++ toString (r / 1000000) ++ "."
    ++ String.mk (List.replicate (6 - frac.length) '0') ++ frac

/-- The values of `time.Parse` followed by `.UTC().UnixNano()` on the timestamps used in the
examples below; every other input is reported as unparsable. -/
def tableParse (layout value : String) : Except String Int :=
  if layout = microLayout ∧ value = "2024-01-01T00:00:05.000000" then .ok 1704067205000000000
  else if layout = microLayout ∧ value = "2023-12-31T23:59:55.000000" then
    .ok 1704067195000000000
  else .error ("cannot parse " ++ value)

/-- A library for the examples: case folding of the letters A to Z only, the timestamp table,
and a float conversion that keeps the value of the decimal (exact on the amounts used in the
examples, which are binary fractions). -/
def tableLib : GoLib where
  EqualFold := fun s t => s.data.map Char.toLower == t.data.map Char.toLower
  ToLower := fun s => String.mk (s.data.map Char.toLower)
  timeParse := tableParse
  InexactFloat64 := Decimal.toRat
  fmtFloat := fmtFloat6

/-- The state of the stores: the orders, the wallets awaiting payment and the clock. -/
structure Store where
  orders : List Order
  wallets : List WalletAddress
  now : CarbonTime
deriving DecidableEq, Repr

/-- The pending order a lookup by wallet and amount selects. -/
def isPendingFor (wallet : String) (amount : ℚ) (o : Order) : Bool :=
  o.Status == .pending && o.Token == wallet && o.ActualAmount == amount

/-- The transition of the orders of one trade to `settled`. -/
def markSettled (tradeId : String) (o : Order) : Order :=
  if o.TradeId = tradeId then { o with Status := .settled } else o

/-- Modelled from the spec: the order store and the wallet store behind
`data.IsWalletLocked`, `data.GetTradeIdByWalletAddressAndAmount`,
`data.GetOrderInfoByTradeId`, `OrderProcessing` and `data.GetAvailableWallet`, whose code is
outside the given sources. A wallet is locked while it has a pending order; the lookup by
wallet and amount returns only pending orders and the empty trade id when there is none; the
transition succeeds for a pending order and marks it settled, and reports an error for an
order that is already settled or unknown. -/
def storeEnv : Env Store where
  IsWalletLocked := fun st wallet =>
    st.orders.any (fun o => o.Status == .pending && o.Token == wallet)
  GetTradeIdByWalletAddressAndAmount := fun st wallet amount =>
    match st.orders.find? (isPendingFor wallet amount) with
    | some o => .ok o.TradeId
    | none => .ok ""
  GetOrderInfoByTradeId := fun st tradeId =>
    match st.orders.find? (fun o => o.TradeId == tradeId) with
    | some o => .ok o
    | none => .error "record not found"
  OrderProcessing := fun st req =>
    match st.orders.find? (fun o => o.TradeId == req.TradeId) with
    | none => (some "order does not exist", st)
    | some o =>
      if o.Status = .pending then
        (none, { st with orders := st.orders.map (markSettled req.TradeId) })
      else (some "order already settled", st)
  Now := fun st => st.now
  ChainNameAptos := "aptos"
  GetAvailableWallet := fun st _ => .ok st.wallets

/-- The store of `storeEnv` with a lookup that fails on one amount: the store answers
that lookup with an error that is not a missing record. -/
def faultyEnv (badAmount : ℚ) : Env Store :=
  { storeEnv with
    GetTradeIdByWalletAddressAndAmount := fun st wallet amount =>
      if amount = badAmount then .error "store unavailable"
      else storeEnv.GetTradeIdByWalletAddressAndAmount st wallet amount }

/-! ### Example data: wallet `0xabc` with one pending order of 10.5 created at `T0` -/

def demoWallet : String := "0xabc"

def demoOrder : Order :=
  { TradeId := "T1", OrderId := "O1", Amount := 75, ActualAmount := mkRat 21 2,
    Token := "aptos:0xabc", Status := .pending,
    CreatedAt := ⟨1704067200000, "2024-01-01 00:00:00"⟩ }

def demoStore : Store :=
  { orders := [demoOrder], wallets := [⟨"0xabc"⟩],
    now := ⟨1704067210000, "2024-01-01 00:00:10"⟩ }

/-- A successful deposit of 10.5 to the wallet. -/
def demoDeposit : Activity :=
  { Amount := 10500000, AssetType := AptosAssetType, IsTransactionSuccess := true,
    Type_ := "0x1::fungible_asset::Deposit", OwnerAddress := "0xABC" }

/-- A transaction observed five seconds after the order was created. -/
def demoTx : AccountTransaction :=
  { TransactionVersion := 987654321, FungibleAssetActivities := [demoDeposit],
    Timestamp := "2024-01-01T00:00:05.000000" }

/-- The same transaction observed five seconds before the order was created. -/
def earlyTx : AccountTransaction :=
  { demoTx with Timestamp := "2023-12-31T23:59:55.000000" }

/-- A transaction whose timestamp no layout parses. -/
def brokenTx : AccountTransaction :=
  { demoTx with Timestamp := "yesterday" }

def okResponse (txs : List AccountTransaction) : HttpResult := .resp 200 (.ok ⟨txs⟩)

/-- The store of the example after the order is settled. -/
def settledStore : Store :=
  { demoStore with orders := [{ demoOrder with Status := .settled }] }

/-- The deposit reported as failed by the indexing API. -/
def failedDeposit : Activity := { demoDeposit with IsTransactionSuccess := false }

/-- A deposit whose type tag holds the word deposit, not preceded by two colons. -/
def coinDeposit : Activity := { demoDeposit with Type_ := "0x1::coin::CoinDeposit" }

/-! ## Helpers of the statements -/

/-- The transaction without the occurrences of one activity. -/
def dropActivityTx (act : Activity) (tx : AccountTransaction) : AccountTransaction :=
  { tx with FungibleAssetActivities := tx.FungibleAssetActivities.filter (fun a => a ≠ act) }

/-- The answer of the indexing API without the occurrences of one activity. -/
def dropActivity (act : Activity) : HttpResult → HttpResult
  | .err e => .err e
  | .resp statusCode (.error e) => .resp statusCode (.error e)
  | .resp statusCode (.ok r) =>
    .resp statusCode (.ok ⟨r.AccountTransactions.map (dropActivityTx act)⟩)

/-- The number a list of decimal digits denotes. -/
def decimalValue (cs : List Char) : Nat :=
  cs.foldl (fun acc c => 10 * acc + (c.toNat - 48)) 0

/-- The number a non-empty list of decimal digits denotes, none for any other list. -/
def readDigits (cs : List Char) : Option Nat :=
  if cs ≠ [] ∧ cs.all Char.isDigit = true then some (decimalValue cs) else none

/-- Reads a decimal rendering back: an optional minus sign, then one or more digits. -/
def readDecimal (s : String) : Option Int :=
  match s.data with
  | [] => none
  | c :: cs =>
    if c = '-' then (readDigits cs).map (fun n => -(n : Int))
    else (readDigits (c :: cs)).map (fun n => (n : Int))

/-- The part `part` occurs in the message. -/
def HasPart (msg part : String) : Prop := ∃ p q : String, msg = p ++ part ++ q

/-- The effects of a settlement: a transition that succeeded, a dispatch job, a notification. -/
def isSettlementEffect : Effect → Bool
  | .orderProcessing _ none => true
  | .enqueue _ _ => true
  | .notify _ => true
  | _ => false

/-- Any call of `OrderProcessing`, a dispatch job or a notification. -/
def isSettlementAttempt : Effect → Bool
  | .orderProcessing _ _ => true
  | .enqueue _ _ => true
  | .notify _ => true
  | _ => false

/-- Two results that agree on everything but the log lines. -/
def Res.sameButLogs {σ : Type} (r1 r2 : Res σ) : Prop :=
  r1.trace = r2.trace ∧ r1.st = r2.st ∧ r1.fault = r2.fault

/-- Two scans that agree on everything but the log lines. -/
def ScanResult.sameButLogs {σ : Type} (r1 r2 : ScanResult σ) : Prop :=
  r1.trace = r2.trace ∧ r1.st = r2.st ∧ r1.recovered = r2.recovered
    ∧ r1.propagated = r2.propagated ∧ r1.done = r2.done

/-- The loop body of an activity fails with the error `e`: the activity passes the filters
and the lookup by wallet and amount, the read of the order or the settlement write returns
`e`. -/
def activityFails {σ : Type} (lib : GoLib) (env : Env σ) (token : String)
    (tx : AccountTransaction) (ts : Int) (st : σ) (act : Activity) (e : String) : Prop :=
  passesFilters lib token act = true ∧
    ∃ d, amountDecimal act.Amount = some d ∧
      (env.GetTradeIdByWalletAddressAndAmount st ("aptos:" ++ token) (lib.InexactFloat64 d)
          = .error e
        ∨ ∃ tradeId, tradeId ≠ ""
            ∧ env.GetTradeIdByWalletAddressAndAmount st ("aptos:" ++ token)
                (lib.InexactFloat64 d) = .ok tradeId
            ∧ (env.GetOrderInfoByTradeId st tradeId = .error e
              ∨ ∃ order, env.GetOrderInfoByTradeId st tradeId = .ok order
                  ∧ order.CreatedAt.TimestampWithMillisecond ≤ ts
                  ∧ (env.OrderProcessing st
                      { TokenWithChainPrefix := "aptos:" ++ token, TradeId := tradeId,
                        Amount := lib.InexactFloat64 d,
                        BlockTransactionId := fmtInt tx.TransactionVersion }).1 = some e))

/-- A deposit of 1.0 to the wallet of the example. -/
def unitDeposit : Activity := { demoDeposit with Amount := 1000000 }

/-- A transaction that holds the deposit of 1.0 before the deposit of 10.5. -/
def twoDepositTx : AccountTransaction :=
  { demoTx with FungibleAssetActivities := [unitDeposit, demoDeposit] }

/-- The activities of the decoded response, over all its transactions. -/
def responseActivities : HttpResult → List Activity
  | .resp _ (.ok r) => (r.AccountTransactions.map (fun tx => tx.FungibleAssetActivities)).flatten
  | _ => []

/-- The amount a call carries: the lookup key, or the amount of the settlement request. -/
def effectAmount : Effect → Option ℚ
  | .lookup _ amount => some amount
  | .orderProcessing req _ => some req.Amount
  | _ => none

/-- A deposit with a negative amount of minor units. -/
def negativeDeposit : Activity := { demoDeposit with Amount := -500000 }

/-- A sequence of scans, as successive ticks and wallets produce them: each scan has its
wallet and the answer of the API, and runs from the state the scan before it left. The
result is the calls of all scans in order, and the final state. -/
def runScans {σ : Type} (lib : GoLib) (env : Env σ) :
    σ → List (String × HttpResult) → List Effect × σ
  | st, [] => ([], st)
  | st, (token, http) :: rest =>
    let r := AptosApiScan lib env st token http
    let p := runScans lib env r.st rest
    (r.trace ++ p.1, p.2)

/-- A settlement that was carried out: the request whose transition succeeded, the order put
in the dispatch job, the message of the notification. -/
structure Settlement where
  req : OrderProcessingRequest
  order : Order
  msg : String

/-- The three calls of a settlement, in the order of the source. -/
def Settlement.block (s : Settlement) : List Effect :=
  [.orderProcessing s.req none, .enqueue s.order 5, .notify s.msg]

/-- The calls of a list of settlements. -/
def settlementBlocks (S : List Settlement) : List Effect := (S.map Settlement.block).flatten

/-- The dispatch job and the notification of a settlement belong to the trade of its request:
the order of the job has the trade id of the request, the message is rendered for it. -/
def Settlement.ofOneTrade (lib : GoLib) (s : Settlement) : Prop :=
  s.order.TradeId = s.req.TradeId
    ∧ ∃ wallet now version, s.msg = notifyMessage lib s.order wallet now version

/-- The orders of the trades in `ids` are no longer pending. -/
def settledIn (st : Store) (ids : List String) : Prop :=
  ∀ t ∈ ids, ∀ o ∈ st.orders, o.TradeId = t → o.Status ≠ .pending

/-- What a piece of the scan, started after the trades `ids` were settled, has done: its
settlement calls are the blocks of settlements of further, pairwise distinct trades, whose
orders are no longer pending afterwards. -/
def settlesFresh (lib : GoLib) (ids : List String) (trace : List Effect) (st : Store) : Prop :=
  ∃ S : List Settlement, trace.filter isSettlementEffect = settlementBlocks S
    ∧ (∀ s ∈ S, s.ofOneTrade lib)
    ∧ (ids ++ S.map (fun s => s.req.TradeId)).Nodup
    ∧ settledIn st (ids ++ S.map (fun s => s.req.TradeId))

/-- The successful transition of the trade `t`. -/
def isTransitionOf (t : String) : Effect → Bool
  | .orderProcessing req none => req.TradeId == t
  | _ => false

/-- A dispatch job for the trade `t`. -/
def isJobOf (t : String) : Effect → Bool
  | .enqueue order _ => order.TradeId == t
  | _ => false

/-- The store of the example with a second pending order on the same wallet, so that the
wallet stays locked after the first order is settled. -/
def busyStore : Store :=
  { demoStore with
    orders := [demoOrder, { demoOrder with TradeId := "T4", OrderId := "O4", ActualAmount := 20 }] }

/-- Two scans of the wallet of the example: the first response holds the deposit twice,
the second scan sees the deposit again. -/
def repeatedScans : List (String × HttpResult) :=
  [(demoWallet, okResponse [{ demoTx with FungibleAssetActivities := [demoDeposit, demoDeposit] }]),
    (demoWallet, okResponse [demoTx])]

section Proofs

set_option maxRecDepth 16384

variable {σ : Type}

theorem amountDecimal_eq (a : Int) : amountDecimal a = some ⟨a * 10 ^ 10, -16⟩ := by
  simp [amountDecimal, Decimal.Div, Decimal.DivRound, Decimal.QuoRem, Decimal.NewFromInt,
    decimalDivisor, Decimal.DivisionPrecision, Decimal.MaxInt32, Decimal.MinInt32, Decimal.Cmp,
    Decimal.RescalePair, Decimal.Abs]

theorem toRat_scaled (a : Int) : (Decimal.toRat ⟨a * 10 ^ 10, -16⟩) = (a : ℚ) / 1000000 := by
  simp [Decimal.toRat, Rat.mkRat_eq_div]
  field_simp
  ring

theorem div_plain_million (a : Int) :
    Decimal.Div (Decimal.NewFromInt a) ⟨1000000, 0⟩ = some ⟨a * 10 ^ 10, -16⟩ := by
  have h1 : Int.tdiv (a * 10000000000000000) 1000000 = a * 10000000000 := by
    have : a * 10000000000000000 = (a * 10000000000) * 1000000 := by ring
    rw [this, Int.mul_tdiv_cancel _ (by norm_num)]
  have h2 : Int.tmod (a * 10000000000000000) 1000000 = 0 := by
    have : a * 10000000000000000 = (a * 10000000000) * 1000000 := by ring
    rw [this, Int.mul_tmod_left]
  simp [Decimal.Div, Decimal.DivRound, Decimal.QuoRem, Decimal.NewFromInt,
    Decimal.DivisionPrecision, Decimal.MaxInt32, Decimal.MinInt32, Decimal.Cmp,
    Decimal.RescalePair, Decimal.Abs, h1, h2]

theorem andThen_skip (st : σ) (k : σ → Res σ) : (Res.andThen ⟨[], [], st, none⟩ k) = k st := by
  simp [Res.andThen]

theorem scanActivity_of_not_passes (lib : GoLib) (env : Env σ) (token : String)
    (tx : AccountTransaction) (ts : Int) (st : σ) (act : Activity)
    (h : passesFilters lib token act = false) :
    scanActivity lib env token tx ts st act = ⟨[], [], st, none⟩ := by
  unfold passesFilters at h
  unfold scanActivity
  simp only [Bool.and_eq_false_iff] at h
  rcases h with ((h | h) | h) | h <;> simp [h]

theorem containsChars_iff (sub l : List Char) : containsChars sub l = true ↔ sub <:+: l := by
  induction l with
  | nil => simp [containsChars]
  | cons c cs ih =>
    simp only [containsChars, Bool.or_eq_true, ih, List.isPrefixOf_iff_prefix]
    constructor
    · rintro (h | h)
      · exact h.isInfix
      · exact h.trans (List.infix_cons (List.infix_refl cs))
    · intro h
      rcases List.infix_cons_iff.mp h with h | h
      · exact Or.inl h
      · exact Or.inr h

theorem contains_deposit_of_marker (s : String) (h : stringsContains s "::deposit" = true) :
    stringsContains s "deposit" = true := by
  unfold stringsContains at *
  rw [containsChars_iff] at *
  have : "deposit".data <:+: "::deposit".data := ⟨[':', ':'], [], by decide⟩
  exact this.trans h

theorem scanActivity_congr_tx (lib : GoLib) (env : Env σ) (token : String)
    (tx tx2 : AccountTransaction) (h : tx2.TransactionVersion = tx.TransactionVersion)
    (ts : Int) (st : σ) (act : Activity) :
    scanActivity lib env token tx2 ts st act = scanActivity lib env token tx ts st act := by
  unfold scanActivity
  simp only [h]

theorem scanActivities_congr_tx (lib : GoLib) (env : Env σ) (token : String)
    (tx tx2 : AccountTransaction) (h : tx2.TransactionVersion = tx.TransactionVersion)
    (ts : Int) (acts : List Activity) (st : σ) :
    scanActivities lib env token tx2 ts st acts = scanActivities lib env token tx ts st acts := by
  induction acts generalizing st with
  | nil => rfl
  | cons a rest ih =>
    simp only [scanActivities, scanActivity_congr_tx lib env token tx tx2 h]
    congr 1
    funext st1
    exact ih st1

theorem scanActivities_drop (lib : GoLib) (env : Env σ) (token : String)
    (tx : AccountTransaction) (ts : Int) (act : Activity)
    (h : passesFilters lib token act = false) (acts : List Activity) (st : σ) :
    scanActivities lib env token tx ts st (acts.filter (fun a => a ≠ act)) =
      scanActivities lib env token tx ts st acts := by
  induction acts generalizing st with
  | nil => rfl
  | cons a rest ih =>
    by_cases ha : a = act
    · subst ha
      simp only [ne_eq, not_true_eq_false, decide_False, Bool.false_eq_true,
        not_false_eq_true, List.filter_cons_of_neg, scanActivities,
        scanActivity_of_not_passes lib env token tx ts st a h, andThen_skip]
      exact ih st
    · simp only [ne_eq, ha, not_false_eq_true, decide_True, List.filter_cons_of_pos,
        scanActivities]
      congr 1
      funext st1
      exact ih st1

theorem scanTransaction_drop (lib : GoLib) (env : Env σ) (token : String) (act : Activity)
    (h : passesFilters lib token act = false) (tx : AccountTransaction) (st : σ) :
    scanTransaction lib env token st (dropActivityTx act tx) =
      scanTransaction lib env token st tx := by
  have hp : parseTimestamp lib (dropActivityTx act tx) = parseTimestamp lib tx := rfl
  unfold scanTransaction
  rw [hp]
  cases parseTimestamp lib tx with
  | error logs => rfl
  | ok ts =>
    have hc := scanActivities_congr_tx lib env token tx (dropActivityTx act tx) rfl ts
      (dropActivityTx act tx).FungibleAssetActivities st
    simp only [hc]
    exact scanActivities_drop lib env token tx ts act h _ st

theorem scanTransactions_drop (lib : GoLib) (env : Env σ) (token : String) (act : Activity)
    (h : passesFilters lib token act = false) (txs : List AccountTransaction) (st : σ) :
    scanTransactions lib env token st (txs.map (dropActivityTx act)) =
      scanTransactions lib env token st txs := by
  induction txs generalizing st with
  | nil => rfl
  | cons tx rest ih =>
    simp only [List.map_cons, scanTransactions, scanTransaction_drop lib env token act h]
    congr 1
    funext st1
    exact ih st1

theorem scanBody_drop (lib : GoLib) (env : Env σ) (token : String) (act : Activity)
    (h : passesFilters lib token act = false) (st : σ) (http : HttpResult) :
    scanBody lib env st token (dropActivity act http) = scanBody lib env st token http := by
  cases http with
  | err e => rfl
  | resp code body =>
    cases body with
    | error e => rfl
    | ok r =>
      simp only [dropActivity, scanBody, List.length_map,
        scanTransactions_drop lib env token act h]

theorem scanActivity_of_passes (lib : GoLib) (env : Env σ) (token : String)
    (tx : AccountTransaction) (ts : Int) (st : σ) (act : Activity) (d : Decimal)
    (h : passesFilters lib token act = true) (hd : amountDecimal act.Amount = some d) :
    scanActivity lib env token tx ts st act =
      (match env.GetTradeIdByWalletAddressAndAmount st ("aptos:" ++ token)
          (lib.InexactFloat64 d) with
      | .error e =>
        ⟨[.lookup ("aptos:" ++ token) (lib.InexactFloat64 d)], [], st, some (.error e)⟩
      | .ok tradeId =>
        if tradeId = "" then ⟨[.lookup ("aptos:" ++ token) (lib.InexactFloat64 d)], [], st, none⟩
        else
          match env.GetOrderInfoByTradeId st tradeId with
          | .error e =>
            ⟨[.lookup ("aptos:" ++ token) (lib.InexactFloat64 d), .getOrder tradeId], [], st,
              some (.error e)⟩
          | .ok order =>
            if ts < order.CreatedAt.TimestampWithMillisecond then
              ⟨[.lookup ("aptos:" ++ token) (lib.InexactFloat64 d), .getOrder tradeId],
                ["Orders cannot actually be matched: " ++ tradeId ++ " <-> aptos_tx_version:"
                  ++ fmtInt tx.TransactionVersion], st, none⟩
            else
              match env.OrderProcessing st
                  ⟨"aptos:" ++ token, tradeId, lib.InexactFloat64 d,
                    fmtInt tx.TransactionVersion⟩ with
              | (some e, st1) =>
                ⟨[.lookup ("aptos:" ++ token) (lib.InexactFloat64 d), .getOrder tradeId,
                    .orderProcessing ⟨"aptos:" ++ token, tradeId, lib.InexactFloat64 d,
                      fmtInt tx.TransactionVersion⟩ (some e)], [], st1, some (.error e)⟩
              | (none, st1) =>
                ⟨[.lookup ("aptos:" ++ token) (lib.InexactFloat64 d), .getOrder tradeId,
                    .orderProcessing ⟨"aptos:" ++ token, tradeId, lib.InexactFloat64 d,
                      fmtInt tx.TransactionVersion⟩ none, .enqueue order 5,
                    .notify (notifyMessage lib order ("aptos:" ++ token) (env.Now st1)
                      tx.TransactionVersion)], [], st1, none⟩) := by
  unfold passesFilters at h
  simp only [Bool.and_eq_true] at h
  obtain ⟨⟨⟨h1, h2⟩, h3⟩, h4⟩ := h
  unfold scanActivity
  simp [h1, h2, h3, h4, hd]

theorem hasPart_tail (a x : String) : HasPart (a ++ x) x :=
  ⟨a, "", by simp⟩

theorem hasPart_append (m x y : String) (h : HasPart m x) : HasPart (m ++ y) x := by
  obtain ⟨p, q, rfl⟩ := h
  exact ⟨p, q ++ y, by simp [String.append_assoc]⟩

theorem hasPart_last (a x y z : String) : HasPart (a ++ x ++ y ++ z) (x ++ y ++ z) :=
  ⟨a, "", by simp [String.append_assoc]⟩

theorem andThen_trace (r : Res σ) (k : σ → Res σ) :
    ∃ more, (r.andThen k).trace = r.trace ++ more := by
  unfold Res.andThen
  cases r.fault with
  | some f => exact ⟨[], by simp⟩
  | none => exact ⟨(k r.st).trace, rfl⟩

theorem andThen_of_fault (r : Res σ) (k : σ → Res σ) (f : Fault) (h : r.fault = some f) :
    r.andThen k = r := by
  simp [Res.andThen, h]

theorem andThen_of_ok (r : Res σ) (k : σ → Res σ) (h : r.fault = none) :
    r.andThen k = ⟨r.trace ++ (k r.st).trace, r.logs ++ (k r.st).logs, (k r.st).st,
      (k r.st).fault⟩ := by
  simp [Res.andThen, h]

theorem andThen_assoc (r : Res σ) (f g : σ → Res σ) :
    (r.andThen f).andThen g = r.andThen (fun s => (f s).andThen g) := by
  unfold Res.andThen
  cases hr : r.fault with
  | some x => simp [hr]
  | none =>
    cases hf : (f r.st).fault with
    | some y => simp [hf]
    | none => simp [hf, List.append_assoc]

theorem scanActivities_append (lib : GoLib) (env : Env σ) (token : String)
    (tx : AccountTransaction) (ts : Int) (pre rest : List Activity) (st : σ) :
    scanActivities lib env token tx ts st (pre ++ rest)
      = (scanActivities lib env token tx ts st pre).andThen
          (fun s => scanActivities lib env token tx ts s rest) := by
  induction pre generalizing st with
  | nil => simp [scanActivities, andThen_skip]
  | cons a pre ih =>
    simp only [List.cons_append, scanActivities, andThen_assoc]
    congr 1
    funext s
    exact ih s

theorem scanTransactions_append (lib : GoLib) (env : Env σ) (token : String)
    (pre rest : List AccountTransaction) (st : σ) :
    scanTransactions lib env token st (pre ++ rest)
      = (scanTransactions lib env token st pre).andThen
          (fun s => scanTransactions lib env token s rest) := by
  induction pre generalizing st with
  | nil => simp [scanTransactions, andThen_skip]
  | cons a pre ih =>
    simp only [List.cons_append, scanTransactions, andThen_assoc]
    congr 1
    funext s
    exact ih s

/-- The length test of the body is redundant: the loop over no transaction does nothing. -/
theorem scanBody_ok (lib : GoLib) (env : Env σ) (st : σ) (token : String)
    (txs : List AccountTransaction)
    (hlock : env.IsWalletLocked st ("aptos:" ++ token) = true) :
    scanBody lib env st token (.resp 200 (.ok ⟨txs⟩))
      = ⟨.post AptosGraphqlUrl token :: (scanTransactions lib env token st txs).trace,
          (scanTransactions lib env token st txs).logs,
          (scanTransactions lib env token st txs).st,
          (scanTransactions lib env token st txs).fault⟩ := by
  unfold scanBody
  simp only [hlock, Bool.not_true, Bool.false_eq_true, if_false, ne_eq, not_true_eq_false]
  cases txs with
  | nil => simp [scanTransactions]
  | cons tx rest => simp

theorem andThen_sameButLogs (r : Res σ) (f g : σ → Res σ)
    (h : ∀ s, (f s).sameButLogs (g s)) : (r.andThen f).sameButLogs (r.andThen g) := by
  unfold Res.andThen
  cases hr : r.fault with
  | some x => exact ⟨rfl, rfl, rfl⟩
  | none =>
    obtain ⟨h1, h2, h3⟩ := h r.st
    exact ⟨by simp [h1], h2, h3⟩

theorem AptosApiScan_propagated (lib : GoLib) (env : Env σ) (st : σ) (token : String)
    (http : HttpResult) : (AptosApiScan lib env st token http).propagated = none := by
  unfold AptosApiScan
  cases h : (scanBody lib env st token http).fault <;> simp [h]

theorem digitChar_digit (k : Nat) (hk : k < 10) :
    (Nat.digitChar k).isDigit = true ∧ (Nat.digitChar k).toNat - 48 = k
      ∧ Nat.digitChar k ≠ '-' := by
  interval_cases k <;> decide

theorem decimalValue_append_single (pre : List Char) (c : Char) :
    decimalValue (pre ++ [c]) = 10 * decimalValue pre + (c.toNat - 48) := by
  simp [decimalValue, List.foldl_append]

theorem toDigitsCore_decimal (fuel : Nat) : ∀ (n : Nat) (ds : List Char), n < fuel →
    ∃ pre, Nat.toDigitsCore 10 fuel n ds = pre ++ ds ∧ pre ≠ []
      ∧ pre.all Char.isDigit = true ∧ decimalValue pre = n := by
  induction fuel with
  | zero => intro n ds h; omega
  | succ fuel ih =>
    intro n ds hn
    obtain ⟨hd1, hd2, _⟩ := digitChar_digit (n % 10) (Nat.mod_lt _ (by norm_num))
    unfold Nat.toDigitsCore
    by_cases h0 : n / 10 = 0
    · simp only [h0, if_true]
      refine ⟨[Nat.digitChar (n % 10)], rfl, by simp, by simp [hd1], ?_⟩
      simp only [decimalValue, List.foldl_cons, List.foldl_nil, hd2]
      omega
    · simp only [h0, if_false]
      obtain ⟨pre, h1, h2, h3, h4⟩ := ih (n / 10) (Nat.digitChar (n % 10) :: ds) (by omega)
      refine ⟨pre ++ [Nat.digitChar (n % 10)], by simp [h1], by simp, ?_, ?_⟩
      · simp [List.all_append, h3, hd1]
      · rw [decimalValue_append_single, h4, hd2]
        omega

theorem readDigits_repr (n : Nat) : readDigits (Nat.repr n).data = some n
    ∧ ∃ c cs, (Nat.repr n).data = c :: cs ∧ c ≠ '-' := by
  obtain ⟨pre, h1, h2, h3, h4⟩ := toDigitsCore_decimal (n + 1) n [] (by omega)
  have hdata : (Nat.repr n).data = pre := by
    simp [Nat.repr, Nat.toDigits, h1, List.asString]
  refine ⟨by simp [readDigits, hdata, h2, h3, h4], ?_⟩
  rw [hdata]
  cases pre with
  | nil => exact absurd rfl h2
  | cons c cs =>
    refine ⟨c, cs, rfl, ?_⟩
    intro hc
    subst hc
    simp at h3

/-- The rendering `%d` is decimal: it reads back as the number rendered. -/
theorem readDecimal_fmtInt (v : Int) : readDecimal (fmtInt v) = some v := by
  unfold fmtInt
  cases v with
  | ofNat m =>
    obtain ⟨h1, c, cs, h2, h3⟩ := readDigits_repr m
    show readDecimal (Nat.repr m) = _
    unfold readDecimal
    rw [h2] at h1 ⊢
    simp [h3, h1]
  | negSucc m =>
    obtain ⟨h1, _⟩ := readDigits_repr (m + 1)
    show readDecimal ("-" ++ Nat.repr (m + 1)) = _
    unfold readDecimal
    have : ("-" ++ Nat.repr (m + 1)).data = '-' :: (Nat.repr (m + 1)).data := by
      simp [String.data_append]
    rw [this]
    simp [h1, Int.negSucc_eq]

/-! ## The claims -/

/-- C5: for every minor-unit amount `a` (every `int64` in particular) the decimal division
of the adapter succeeds and the decimal it yields denotes exactly `a / 1000000`: the
division at 16 decimal places introduces no rounding. The amount `10500000` yields exactly
`10.5`. The result does not depend on how the divisor one million is held (digit 1 with
exponent 6, or 1000000 with exponent 0). -/
theorem amountDecimal_exact (a : Int) :
    (∃ d, amountDecimal a = some d ∧ d.toRat = (a : ℚ) / 1000000)
      ∧ (∃ d, amountDecimal 10500000 = some d ∧ d.toRat = 21 / 2)
      ∧ ∃ d, Decimal.Div (Decimal.NewFromInt a) ⟨1000000, 0⟩ = some d
          ∧ d.toRat = (a : ℚ) / 1000000 := by
  refine ⟨⟨_, amountDecimal_eq a, toRat_scaled a⟩, ⟨_, amountDecimal_eq _, ?_⟩,
    ⟨_, div_plain_million a, toRat_scaled a⟩⟩
  rw [toRat_scaled]
  norm_num

/-- C1: an activity that is not successful, or whose asset type differs from `AptosAssetType`
ignoring case, or whose owner differs from the scanned wallet ignoring case, or whose
lower-cased type tag does not hold `::deposit` (in particular: does not hold `deposit`),
causes no call at all: its loop body returns with no effect, no log and no state change, and
deleting it from any answer of the API leaves the whole scan unchanged. -/
theorem filtered_activity_no_settlement (lib : GoLib) (env : Env σ) (token : String)
    (tx : AccountTransaction) (ts : Int) (st : σ) (act : Activity)
    (h : act.IsTransactionSuccess = false
      ∨ lib.EqualFold act.AssetType AptosAssetType = false
      ∨ lib.EqualFold act.OwnerAddress token = false
      ∨ stringsContains (lib.ToLower act.Type_) "::deposit" = false
      ∨ stringsContains (lib.ToLower act.Type_) "deposit" = false) :
    scanActivity lib env token tx ts st act = ⟨[], [], st, none⟩
      ∧ ∀ (st0 : σ) (http : HttpResult),
          AptosApiScan lib env st0 token (dropActivity act http)
            = AptosApiScan lib env st0 token http := by
  have hp : passesFilters lib token act = false := by
    unfold passesFilters
    rcases h with h | h | h | h | h
    · simp [h]
    · simp [h]
    · simp [h]
    · simp [h]
    · have h2 : stringsContains (lib.ToLower act.Type_) "::deposit" = false := by
        cases hc : stringsContains (lib.ToLower act.Type_) "::deposit" with
        | false => rfl
        | true => rw [contains_deposit_of_marker _ hc] at h; cases h
      simp [h2]
  refine ⟨scanActivity_of_not_passes lib env token tx ts st act hp, ?_⟩
  intro st0 http
  unfold AptosApiScan
  rw [scanBody_drop lib env token act hp]

/-- The claim C1 at a failed deposit placed next to a good one. -/
theorem filtered_activity_no_settlement_witness :
    failedDeposit.IsTransactionSuccess = false
      ∧ scanActivity tableLib storeEnv demoWallet demoTx 1704067205000 demoStore failedDeposit
          = ⟨[], [], demoStore, none⟩
      ∧ AptosApiScan tableLib storeEnv demoStore demoWallet
            (dropActivity failedDeposit
              (okResponse [{ demoTx with
                FungibleAssetActivities := [failedDeposit, demoDeposit] }]))
          = AptosApiScan tableLib storeEnv demoStore demoWallet
            (okResponse [{ demoTx with
              FungibleAssetActivities := [failedDeposit, demoDeposit] }]) :=
  ⟨rfl,
    (filtered_activity_no_settlement tableLib storeEnv demoWallet demoTx 1704067205000
      demoStore failedDeposit (Or.inl rfl)).1,
    (filtered_activity_no_settlement tableLib storeEnv demoWallet demoTx 1704067205000
      demoStore failedDeposit (Or.inl rfl)).2 demoStore _⟩

/-- C10, as stated, fails, in two ways. The type tag `0x1::coin::CoinDeposit` holds the marker
`deposit` ignoring case and the other three conditions hold, the timestamp of the
transaction parses, yet the activity is filtered out: its loop body issues no call, and the
scan of an answer made of this activity issues the POST only, no lookup. And the deposit of
10.5, which meets every condition, is never looked up when it stands behind an activity
whose lookup fails: the scan has ended before it. -/
theorem deposit_marker_counterexample :
    coinDeposit.IsTransactionSuccess = true
      ∧ tableLib.EqualFold coinDeposit.AssetType AptosAssetType = true
      ∧ tableLib.EqualFold coinDeposit.OwnerAddress demoWallet = true
      ∧ stringsContains (tableLib.ToLower coinDeposit.Type_) "deposit" = true
      ∧ parseTimestamp tableLib demoTx = .ok 1704067205000
      ∧ (scanActivity tableLib storeEnv demoWallet demoTx 1704067205000 demoStore
          coinDeposit).trace = []
      ∧ (AptosApiScan tableLib storeEnv demoStore demoWallet
          (okResponse [{ demoTx with FungibleAssetActivities := [coinDeposit] }])).trace
          = [.post AptosGraphqlUrl demoWallet]
      ∧ demoDeposit.IsTransactionSuccess = true
      ∧ tableLib.EqualFold demoDeposit.AssetType AptosAssetType = true
      ∧ tableLib.EqualFold demoDeposit.OwnerAddress demoWallet = true
      ∧ stringsContains (tableLib.ToLower demoDeposit.Type_) "deposit" = true
      ∧ demoDeposit ∈ twoDepositTx.FungibleAssetActivities
      ∧ parseTimestamp tableLib twoDepositTx = .ok 1704067205000
      ∧ (AptosApiScan tableLib (faultyEnv 1) demoStore demoWallet
          (okResponse [twoDepositTx])).trace
          = [.post AptosGraphqlUrl demoWallet, .lookup "aptos:0xabc" 1] := by
  refine ⟨rfl, by decide, by decide, by decide, by rfl, by decide, by decide, rfl, by decide,
    by decide, by decide, by decide, by rfl, by decide⟩

/-- C10, amended: an activity that is successful, whose asset type equals the target ignoring
case, whose owner equals the scanned wallet ignoring case and whose lower-cased type tag
holds the marker `::deposit` passes the four filters, and its loop body first issues the
order lookup with the wallet under the `aptos:` prefix and the float of the decimal amount.
In the scan of a response that holds it, for a locked wallet and a decoded answer of status
200, the lookup is issued for it, right after the calls of what precedes it, provided the
timestamp of its transaction parses and no transaction or activity before it has ended the
scan with a fault. -/
theorem deposit_reaches_lookup (lib : GoLib) (env : Env σ) (token : String) (st : σ)
    (pre post : List AccountTransaction) (tx : AccountTransaction) (ts : Int)
    (apre apost : List Activity) (act : Activity)
    (hs : act.IsTransactionSuccess = true)
    (ha : lib.EqualFold act.AssetType AptosAssetType = true)
    (ho : lib.EqualFold act.OwnerAddress token = true)
    (hm : stringsContains (lib.ToLower act.Type_) "::deposit" = true)
    (hts : parseTimestamp lib tx = .ok ts)
    (hlock : env.IsWalletLocked st ("aptos:" ++ token) = true)
    (hpre : (scanTransactions lib env token st pre).fault = none)
    (hapre : (scanActivities lib env token tx ts
      (scanTransactions lib env token st pre).st apre).fault = none) :
    passesFilters lib token act = true
      ∧ ∃ d, amountDecimal act.Amount = some d
          ∧ (∀ s : σ, ∃ rest, (scanActivity lib env token tx ts s act).trace
              = .lookup ("aptos:" ++ token) (lib.InexactFloat64 d) :: rest)
          ∧ ∃ rest, (AptosApiScan lib env st token
                (.resp 200 (.ok ⟨pre
                  ++ { tx with FungibleAssetActivities := apre ++ act :: apost } :: post⟩))).trace
              = .post AptosGraphqlUrl token :: ((scanTransactions lib env token st pre).trace
                  ++ ((scanActivities lib env token tx ts
                        (scanTransactions lib env token st pre).st apre).trace
                    ++ .lookup ("aptos:" ++ token) (lib.InexactFloat64 d) :: rest)) := by
  have hp : passesFilters lib token act = true := by
    simp [passesFilters, hs, ha, ho, hm]
  have hstep : ∀ s : σ, (scanActivity lib env token tx ts s act).trace
      = .lookup ("aptos:" ++ token) (lib.InexactFloat64 ⟨act.Amount * 10 ^ 10, -16⟩)
          :: (scanActivity lib env token tx ts s act).trace.tail := by
    intro s
    rw [scanActivity_of_passes lib env token tx ts s act _ hp (amountDecimal_eq act.Amount)]
    repeat' split
    all_goals rfl
  refine ⟨hp, _, amountDecimal_eq act.Amount, fun s => ⟨_, hstep s⟩, ?_⟩
  show ∃ rest, (scanBody lib env st token _).trace = _
  rw [scanBody_ok lib env st token _ hlock, scanTransactions_append, andThen_of_ok _ _ hpre]
  have hparse : parseTimestamp lib
      { tx with FungibleAssetActivities := apre ++ act :: apost } = .ok ts := hts
  obtain ⟨more1, hmore1⟩ := andThen_trace
    (scanTransaction lib env token (scanTransactions lib env token st pre).st
      { tx with FungibleAssetActivities := apre ++ act :: apost })
    (fun s => scanTransactions lib env token s post)
  have htx : scanTransaction lib env token (scanTransactions lib env token st pre).st
      { tx with FungibleAssetActivities := apre ++ act :: apost }
      = scanActivities lib env token tx ts (scanTransactions lib env token st pre).st
        (apre ++ act :: apost) := by
    unfold scanTransaction
    rw [hparse]
    exact scanActivities_congr_tx lib env token tx
      { tx with FungibleAssetActivities := apre ++ act :: apost } rfl ts _ _
  obtain ⟨more2, hmore2⟩ := andThen_trace
    (scanActivity lib env token tx ts
      (scanActivities lib env token tx ts (scanTransactions lib env token st pre).st apre).st
      act)
    (fun s => scanActivities lib env token tx ts s apost)
  refine ⟨(scanActivity lib env token tx ts
      (scanActivities lib env token tx ts (scanTransactions lib env token st pre).st apre).st
      act).trace.tail ++ more2 ++ more1, ?_⟩
  simp only [scanTransactions]
  rw [hmore1, htx, scanActivities_append, andThen_of_ok _ _ hapre]
  simp only [scanActivities]
  rw [hmore2, hstep]
  simp [List.append_assoc]

/-- The claim C10, amended, at the deposit of 10.5 standing behind a deposit of 1.0 that
matches no order. -/
theorem deposit_reaches_lookup_witness :
    demoDeposit.IsTransactionSuccess = true
      ∧ tableLib.EqualFold demoDeposit.AssetType AptosAssetType = true
      ∧ tableLib.EqualFold demoDeposit.OwnerAddress demoWallet = true
      ∧ stringsContains (tableLib.ToLower demoDeposit.Type_) "::deposit" = true
      ∧ parseTimestamp tableLib demoTx = .ok 1704067205000
      ∧ storeEnv.IsWalletLocked demoStore ("aptos:" ++ demoWallet) = true
      ∧ (scanTransactions tableLib storeEnv demoWallet demoStore []).fault = none
      ∧ (scanActivities tableLib storeEnv demoWallet demoTx 1704067205000
          (scanTransactions tableLib storeEnv demoWallet demoStore []).st
          [unitDeposit]).fault = none
      ∧ (passesFilters tableLib demoWallet demoDeposit = true
        ∧ ∃ d, amountDecimal demoDeposit.Amount = some d
            ∧ (∀ s : Store, ∃ rest, (scanActivity tableLib storeEnv demoWallet demoTx
                  1704067205000 s demoDeposit).trace
                = .lookup ("aptos:" ++ demoWallet) (tableLib.InexactFloat64 d) :: rest)
            ∧ ∃ rest, (AptosApiScan tableLib storeEnv demoStore demoWallet
                  (.resp 200 (.ok ⟨[] ++ { demoTx with
                    FungibleAssetActivities := [unitDeposit] ++ demoDeposit :: [] }
                      :: []⟩))).trace
                = .post AptosGraphqlUrl demoWallet
                  :: ((scanTransactions tableLib storeEnv demoWallet demoStore []).trace
                    ++ ((scanActivities tableLib storeEnv demoWallet demoTx 1704067205000
                          (scanTransactions tableLib storeEnv demoWallet demoStore []).st
                          [unitDeposit]).trace
                      ++ .lookup ("aptos:" ++ demoWallet) (tableLib.InexactFloat64 d)
                        :: rest)))
      ∧ (AptosApiScan tableLib storeEnv demoStore demoWallet
          (okResponse [twoDepositTx])).trace.take 3
        = [.post AptosGraphqlUrl "0xabc", .lookup "aptos:0xabc" 1,
            .lookup "aptos:0xabc" (mkRat 21 2)] :=
  ⟨rfl, by decide, by decide, by decide, by rfl, by decide, by rfl, by rfl,
    deposit_reaches_lookup tableLib storeEnv demoWallet demoStore [] [] demoTx 1704067205000
      [unitDeposit] [] demoDeposit rfl (by decide) (by decide) (by decide) (by rfl)
      (by decide) (by rfl) (by rfl),
    by rfl⟩

/-- C2: for an activity that passes the filters and whose lookup by wallet and amount returns
the trade of an order: if the timestamp of the transaction in UTC milliseconds is strictly
less than the creation time of the order, the loop body issues the two reads only (no
`OrderProcessing` call, no dispatch job, no notification), logs the mismatch, leaves the
state unchanged and the loop goes on with the next activity; and whenever the body does
issue an `OrderProcessing` call, a dispatch job or a notification, the timestamp is at
least the creation time. -/
theorem non_causal_match_not_settled (lib : GoLib) (env : Env σ) (token : String)
    (tx : AccountTransaction) (ts : Int) (st : σ) (act : Activity) (d : Decimal)
    (tradeId : String) (order : Order) (rest : List Activity)
    (hp : passesFilters lib token act = true)
    (hd : amountDecimal act.Amount = some d)
    (hl : env.GetTradeIdByWalletAddressAndAmount st ("aptos:" ++ token)
      (lib.InexactFloat64 d) = .ok tradeId)
    (hne : tradeId ≠ "")
    (ho : env.GetOrderInfoByTradeId st tradeId = .ok order) :
    (ts < order.CreatedAt.TimestampWithMillisecond →
      scanActivity lib env token tx ts st act
          = ⟨[.lookup ("aptos:" ++ token) (lib.InexactFloat64 d), .getOrder tradeId],
              ["Orders cannot actually be matched: " ++ tradeId ++ " <-> aptos_tx_version:"
                ++ fmtInt tx.TransactionVersion], st, none⟩
        ∧ (∀ e ∈ (scanActivity lib env token tx ts st act).trace,
            isSettlementAttempt e = false)
        ∧ scanActivities lib env token tx ts st (act :: rest)
          = ⟨[.lookup ("aptos:" ++ token) (lib.InexactFloat64 d), .getOrder tradeId]
                ++ (scanActivities lib env token tx ts st rest).trace,
              ["Orders cannot actually be matched: " ++ tradeId ++ " <-> aptos_tx_version:"
                ++ fmtInt tx.TransactionVersion]
                ++ (scanActivities lib env token tx ts st rest).logs,
              (scanActivities lib env token tx ts st rest).st,
              (scanActivities lib env token tx ts st rest).fault⟩)
      ∧ ((∃ e ∈ (scanActivity lib env token tx ts st act).trace,
            isSettlementAttempt e = true)
          → order.CreatedAt.TimestampWithMillisecond ≤ ts) := by
  have hbody := scanActivity_of_passes lib env token tx ts st act d hp hd
  simp only [hl, hne, if_false, ho] at hbody
  constructor
  · intro hts
    simp only [hts, if_true] at hbody
    refine ⟨hbody, ?_, ?_⟩
    · rw [hbody]
      intro e he
      simp only [List.mem_cons, List.mem_singleton, List.not_mem_nil, or_false] at he
      rcases he with rfl | rfl <;> rfl
    · simp only [scanActivities, hbody, Res.andThen]
  · rintro ⟨e, he, hatt⟩
    by_contra hlt
    have hts : ts < order.CreatedAt.TimestampWithMillisecond := not_le.mp hlt
    simp only [hts, if_true] at hbody
    rw [hbody] at he
    simp only [List.mem_cons, List.mem_singleton, List.not_mem_nil, or_false] at he
    rcases he with rfl | rfl <;> simp [isSettlementAttempt] at hatt

/-- The claim C2 in scenario B: the deposit is observed five seconds before the order was
created, and the order is not settled. -/
theorem non_causal_match_not_settled_witness :
    passesFilters tableLib demoWallet demoDeposit = true
      ∧ amountDecimal demoDeposit.Amount = some ⟨105000000000000000, -16⟩
      ∧ storeEnv.GetTradeIdByWalletAddressAndAmount demoStore ("aptos:" ++ demoWallet)
          (tableLib.InexactFloat64 ⟨105000000000000000, -16⟩) = .ok "T1"
      ∧ "T1" ≠ ""
      ∧ storeEnv.GetOrderInfoByTradeId demoStore "T1" = .ok demoOrder
      ∧ parseTimestamp tableLib earlyTx = .ok 1704067195000
      ∧ (1704067195000 : Int) < demoOrder.CreatedAt.TimestampWithMillisecond
      ∧ scanActivity tableLib storeEnv demoWallet earlyTx 1704067195000 demoStore demoDeposit
          = ⟨[.lookup ("aptos:" ++ demoWallet)
                (tableLib.InexactFloat64 ⟨105000000000000000, -16⟩), .getOrder "T1"],
              ["Orders cannot actually be matched: " ++ "T1" ++ " <-> aptos_tx_version:"
                ++ fmtInt earlyTx.TransactionVersion], demoStore, none⟩ :=
  ⟨by decide, by decide, by rfl, by decide, by rfl, by rfl, by decide,
    ((non_causal_match_not_settled tableLib storeEnv demoWallet earlyTx 1704067195000
      demoStore demoDeposit ⟨105000000000000000, -16⟩ "T1" demoOrder [] (by decide)
      (by decide) (by rfl) (by decide) (by rfl)).1 (by decide)).1⟩

/-- C4: for an activity that passes the filters, whose lookup returns the trade of an order
created not after the timestamp of the transaction, and whose `OrderProcessing` call
returns no error, the loop body issues, after the two reads, exactly one settlement request
carrying the wallet under the `aptos:` prefix, the matched trade id, the normalised amount
and, as chain transaction id, the transaction version rendered in decimal (the id reads
back as the version), then exactly one dispatch job with a retry budget of 5, then exactly
one notification, whose message holds the trade id, the order id, the requested amount,
the actual amount, the wallet, the creation time of the order, the settlement time and
the transaction version in decimal. -/
theorem accepted_deposit_settles_once (lib : GoLib) (env : Env σ) (token : String)
    (tx : AccountTransaction) (ts : Int) (st st1 : σ) (act : Activity) (d : Decimal)
    (tradeId : String) (order : Order)
    (hp : passesFilters lib token act = true)
    (hd : amountDecimal act.Amount = some d)
    (hl : env.GetTradeIdByWalletAddressAndAmount st ("aptos:" ++ token)
      (lib.InexactFloat64 d) = .ok tradeId)
    (hne : tradeId ≠ "")
    (ho : env.GetOrderInfoByTradeId st tradeId = .ok order)
    (hts : order.CreatedAt.TimestampWithMillisecond ≤ ts)
    (hop : env.OrderProcessing st
      { TokenWithChainPrefix := "aptos:" ++ token, TradeId := tradeId,
        Amount := lib.InexactFloat64 d,
        BlockTransactionId := fmtInt tx.TransactionVersion } = (none, st1)) :
    (∃ id : String, readDecimal id = some tx.TransactionVersion
        ∧ scanActivity lib env token tx ts st act
          = ⟨[.lookup ("aptos:" ++ token) (lib.InexactFloat64 d), .getOrder tradeId,
              .orderProcessing
                { TokenWithChainPrefix := "aptos:" ++ token, TradeId := tradeId,
                  Amount := lib.InexactFloat64 d, BlockTransactionId := id } none,
              .enqueue order 5,
              .notify (notifyMessage lib order ("aptos:" ++ token) (env.Now st1)
                tx.TransactionVersion)], [], st1, none⟩
        ∧ HasPart (notifyMessage lib order ("aptos:" ++ token) (env.Now st1)
            tx.TransactionVersion) ("</pre>\n<pre>aptos_tx_version: " ++ id ++ "</pre>\n"))
      ∧ d.toRat = (act.Amount : ℚ) / 1000000
      ∧ HasPart (notifyMessage lib order ("aptos:" ++ token) (env.Now st1)
          tx.TransactionVersion) order.TradeId
      ∧ HasPart (notifyMessage lib order ("aptos:" ++ token) (env.Now st1)
          tx.TransactionVersion) order.OrderId
      ∧ HasPart (notifyMessage lib order ("aptos:" ++ token) (env.Now st1)
          tx.TransactionVersion) (lib.fmtFloat order.Amount)
      ∧ HasPart (notifyMessage lib order ("aptos:" ++ token) (env.Now st1)
          tx.TransactionVersion) (lib.fmtFloat order.ActualAmount)
      ∧ HasPart (notifyMessage lib order ("aptos:" ++ token) (env.Now st1)
          tx.TransactionVersion) ("aptos:" ++ token)
      ∧ HasPart (notifyMessage lib order ("aptos:" ++ token) (env.Now st1)
          tx.TransactionVersion) order.CreatedAt.ToDateTimeString
      ∧ HasPart (notifyMessage lib order ("aptos:" ++ token) (env.Now st1)
          tx.TransactionVersion) (env.Now st1).ToDateTimeString := by
  have hbody := scanActivity_of_passes lib env token tx ts st act d hp hd
  simp only [hl, hne, if_false, ho, not_lt.mpr hts, hop] at hbody
  have hdec : d = ⟨act.Amount * 10 ^ 10, -16⟩ := by
    have := amountDecimal_eq act.Amount
    rw [hd] at this
    exact Option.some.inj this
  refine ⟨⟨fmtInt tx.TransactionVersion, readDecimal_fmtInt _, hbody, ?_⟩,
    by rw [hdec]; exact toRat_scaled act.Amount, ?_, ?_, ?_, ?_, ?_, ?_, ?_⟩
  · unfold notifyMessage
    exact hasPart_last _ _ _ _
  all_goals
    unfold notifyMessage
    repeat (first | exact hasPart_tail _ _ | apply hasPart_append)

/-- The claim C4 in scenario A: the deposit of 10.5 observed five seconds after the order was
created settles it with one request, whose chain transaction id is `987654321`, one
dispatch job and one notification. -/
theorem accepted_deposit_settles_once_witness :
    passesFilters tableLib demoWallet demoDeposit = true
      ∧ amountDecimal demoDeposit.Amount = some ⟨105000000000000000, -16⟩
      ∧ storeEnv.GetTradeIdByWalletAddressAndAmount demoStore ("aptos:" ++ demoWallet)
          (tableLib.InexactFloat64 ⟨105000000000000000, -16⟩) = .ok "T1"
      ∧ "T1" ≠ ""
      ∧ storeEnv.GetOrderInfoByTradeId demoStore "T1" = .ok demoOrder
      ∧ demoOrder.CreatedAt.TimestampWithMillisecond ≤ 1704067205000
      ∧ storeEnv.OrderProcessing demoStore
          { TokenWithChainPrefix := "aptos:" ++ demoWallet, TradeId := "T1",
            Amount := tableLib.InexactFloat64 ⟨105000000000000000, -16⟩,
            BlockTransactionId := fmtInt demoTx.TransactionVersion } = (none, settledStore)
      ∧ (∃ id : String, readDecimal id = some demoTx.TransactionVersion
          ∧ scanActivity tableLib storeEnv demoWallet demoTx 1704067205000 demoStore
              demoDeposit
            = ⟨[.lookup ("aptos:" ++ demoWallet)
                  (tableLib.InexactFloat64 ⟨105000000000000000, -16⟩), .getOrder "T1",
                .orderProcessing
                  { TokenWithChainPrefix := "aptos:" ++ demoWallet, TradeId := "T1",
                    Amount := tableLib.InexactFloat64 ⟨105000000000000000, -16⟩,
                    BlockTransactionId := id } none,
                .enqueue demoOrder 5,
                .notify (notifyMessage tableLib demoOrder ("aptos:" ++ demoWallet)
                  (storeEnv.Now settledStore) demoTx.TransactionVersion)], [], settledStore,
                none⟩
          ∧ HasPart (notifyMessage tableLib demoOrder ("aptos:" ++ demoWallet)
              (storeEnv.Now settledStore) demoTx.TransactionVersion)
              ("</pre>\n<pre>aptos_tx_version: " ++ id ++ "</pre>\n"))
      ∧ (scanActivity tableLib storeEnv demoWallet demoTx 1704067205000 demoStore
          demoDeposit).trace
        = [.lookup "aptos:0xabc" (mkRat 21 2), .getOrder "T1",
            .orderProcessing ⟨"aptos:0xabc", "T1", mkRat 21 2, "987654321"⟩ none,
            .enqueue demoOrder 5,
            .notify ("\n<b>📢📢 有新的 Aptos 交易支付成功！</b>\n<pre>交易号：T1</pre>\n"
              ++ "<pre>订单号：O1</pre>\n<pre>请求支付金额：75.000000 cny</pre>\n"
              ++ "<pre>实际支付金额：10.500000 token</pre>\n<pre>钱包地址：aptos:0xabc</pre>\n"
              ++ "<pre>订单创建时间：2024-01-01 00:00:00</pre>\n"
              ++ "<pre>支付成功时间：2024-01-01 00:00:10</pre>\n"
              ++ "<pre>aptos_tx_version: 987654321</pre>\n")] :=
  ⟨by decide, by decide, by rfl, by decide, by rfl, by decide, by rfl,
    (accepted_deposit_settles_once tableLib storeEnv demoWallet demoTx 1704067205000
      demoStore settledStore demoDeposit ⟨105000000000000000, -16⟩ "T1" demoOrder
      (by decide) (by decide) (by rfl) (by decide) (by rfl) (by decide) (by rfl)).1,
    by rfl⟩

theorem scanBody_sameButLogs (lib : GoLib) (env : Env σ) (st : σ) (token : String)
    (code : Int) (txs1 txs2 : List AccountTransaction)
    (h : (scanTransactions lib env token st txs1).sameButLogs
      (scanTransactions lib env token st txs2)) :
    (scanBody lib env st token (.resp code (.ok ⟨txs1⟩))).sameButLogs
      (scanBody lib env st token (.resp code (.ok ⟨txs2⟩))) := by
  cases hlock : env.IsWalletLocked st ("aptos:" ++ token) with
  | false => simp [scanBody, hlock, Res.sameButLogs]
  | true =>
    by_cases hc : code = 200
    · subst hc
      rw [scanBody_ok lib env st token txs1 hlock, scanBody_ok lib env st token txs2 hlock]
      obtain ⟨h1, h2, h3⟩ := h
      exact ⟨by simp [h1], h2, h3⟩
    · simp [scanBody, hlock, hc, Res.sameButLogs]

theorem parseTimestamp_of_unparsable (lib : GoLib) (bad : AccountTransaction)
    (h : bad.Timestamp = ""
      ∨ ((∃ e, lib.timeParse microLayout bad.Timestamp = .error e)
        ∧ ∃ e, lib.timeParse RFC3339Nano bad.Timestamp = .error e)) :
    ∃ logs, parseTimestamp lib bad = .error logs := by
  unfold parseTimestamp
  rcases h with h | ⟨⟨e1, h1⟩, ⟨e2, h2⟩⟩
  · exact ⟨[], by simp [h]⟩
  · by_cases hne : bad.Timestamp = ""
    · exact ⟨[], by simp [hne]⟩
    · simp [hne, h1, h2]

/-- C7: a transaction whose timestamp is empty, or fails to parse under the layout
`2006-01-02T15:04:05.999999` and under `RFC3339Nano`, is skipped: its loop body issues no
call (none of its activities is looked up or settled), changes no state and raises no
fault; and the scan of a response holding it issues the same calls, ends in the same state
and with the same outcome as the scan of the response without it (only the log may gain
the line of the skip). The layouts are tried in that order: a timestamp the first layout
parses takes its value from the first layout, and from the second one only when the first
fails. -/
theorem unparsable_timestamp_skips_transaction (lib : GoLib) (env : Env σ) (token : String)
    (st : σ) (bad : AccountTransaction) (pre post : List AccountTransaction) (code : Int)
    (h : bad.Timestamp = ""
      ∨ ((∃ e, lib.timeParse microLayout bad.Timestamp = .error e)
        ∧ ∃ e, lib.timeParse RFC3339Nano bad.Timestamp = .error e)) :
    ((scanTransaction lib env token st bad).trace = []
        ∧ (scanTransaction lib env token st bad).st = st
        ∧ (scanTransaction lib env token st bad).fault = none)
      ∧ (AptosApiScan lib env st token (.resp code (.ok ⟨pre ++ bad :: post⟩))).sameButLogs
          (AptosApiScan lib env st token (.resp code (.ok ⟨pre ++ post⟩)))
      ∧ (∀ (tx : AccountTransaction) (p : Int), tx.Timestamp ≠ "" →
          lib.timeParse microLayout tx.Timestamp = .ok p →
          parseTimestamp lib tx = .ok (Int.tdiv p 1000000))
      ∧ ∀ (tx : AccountTransaction) (e : String) (p : Int), tx.Timestamp ≠ "" →
          lib.timeParse microLayout tx.Timestamp = .error e →
          lib.timeParse RFC3339Nano tx.Timestamp = .ok p →
          parseTimestamp lib tx = .ok (Int.tdiv p 1000000) := by
  obtain ⟨logs, hlogs⟩ := parseTimestamp_of_unparsable lib bad h
  have hbad : ∀ s, scanTransaction lib env token s bad = ⟨[], logs, s, none⟩ := by
    intro s
    simp [scanTransaction, hlogs]
  refine ⟨by simp [hbad], ?_, ?_, ?_⟩
  · have hrest : ∀ s, (scanTransactions lib env token s (bad :: post)).sameButLogs
        (scanTransactions lib env token s post) := by
      intro s
      simp [scanTransactions, hbad, Res.andThen, Res.sameButLogs]
    have hall := andThen_sameButLogs (scanTransactions lib env token st pre) _ _ hrest
    rw [← scanTransactions_append, ← scanTransactions_append] at hall
    obtain ⟨h1, h2, h3⟩ := scanBody_sameButLogs lib env st token code _ _ hall
    exact ⟨h1, h2, h3, by simp [AptosApiScan_propagated], rfl⟩
  · intro tx p hne hp
    simp [parseTimestamp, hne, hp, Millisecond]
  · intro tx e p hne he hp
    simp [parseTimestamp, hne, he, hp, Millisecond]

/-- The claim C7 at a transaction stamped `yesterday` placed before a good one. -/
theorem unparsable_timestamp_skips_transaction_witness :
    (brokenTx.Timestamp = ""
        ∨ ((∃ e, tableLib.timeParse microLayout brokenTx.Timestamp = .error e)
          ∧ ∃ e, tableLib.timeParse RFC3339Nano brokenTx.Timestamp = .error e))
      ∧ (AptosApiScan tableLib storeEnv demoStore demoWallet
          (.resp 200 (.ok ⟨[] ++ brokenTx :: [demoTx]⟩))).sameButLogs
        (AptosApiScan tableLib storeEnv demoStore demoWallet
          (.resp 200 (.ok ⟨[] ++ [demoTx]⟩))) :=
  ⟨Or.inr ⟨⟨_, rfl⟩, ⟨_, rfl⟩⟩,
    (unparsable_timestamp_skips_transaction tableLib storeEnv demoWallet demoStore brokenTx
      [] [demoTx] 200 (Or.inr ⟨⟨_, rfl⟩, ⟨_, rfl⟩⟩)).2.1⟩

theorem scanActivity_fault_of_fails (lib : GoLib) (env : Env σ) (token : String)
    (tx : AccountTransaction) (ts : Int) (st : σ) (act : Activity) (e : String)
    (h : activityFails lib env token tx ts st act e) :
    (scanActivity lib env token tx ts st act).fault = some (.error e) := by
  obtain ⟨hp, d, hd, h⟩ := h
  rw [scanActivity_of_passes lib env token tx ts st act d hp hd]
  rcases h with hl | ⟨tradeId, hne, hl, h⟩
  · simp [hl]
  · rcases h with ho | ⟨order, ho, hts, hop⟩
    · simp [hl, hne, ho]
    · simp only [hl, hne, if_false, ho, not_lt.mpr hts]
      split
      · rename_i e2 st1 heq
        rw [heq] at hop
        simp only [Option.some.injEq] at hop
        simp [hop]
      · rename_i st1 heq
        rw [heq] at hop
        cases hop

theorem scanActivities_cut (lib : GoLib) (env : Env σ) (token : String)
    (tx : AccountTransaction) (ts : Int) (l more : List Activity) (st : σ) (f : Fault)
    (h : (scanActivities lib env token tx ts st l).fault = some f) :
    scanActivities lib env token tx ts st (l ++ more)
      = scanActivities lib env token tx ts st l := by
  rw [scanActivities_append, andThen_of_fault _ _ f h]

theorem scanTransactions_cut (lib : GoLib) (env : Env σ) (token : String)
    (l more : List AccountTransaction) (st : σ) (f : Fault)
    (h : (scanTransactions lib env token st l).fault = some f) :
    scanTransactions lib env token st (l ++ more) = scanTransactions lib env token st l := by
  rw [scanTransactions_append, andThen_of_fault _ _ f h]

/-- C6, as stated, fails: with a store whose lookup for the amount 1 returns an error, the
scan of a transaction holding the deposit of 1.0 before the deposit of 10.5 stops at the
failing lookup, so the later deposit is not processed (no dispatch job for the order),
whereas the scan of the same transaction without the failing deposit settles the order. -/
theorem lookup_failure_counterexample :
    (faultyEnv 1).GetTradeIdByWalletAddressAndAmount demoStore ("aptos:" ++ demoWallet)
        (tableLib.InexactFloat64 ⟨10000000000000000, -16⟩) = .error "store unavailable"
      ∧ (AptosApiScan tableLib (faultyEnv 1) demoStore demoWallet
          (okResponse [twoDepositTx])).trace
          = [.post AptosGraphqlUrl demoWallet, .lookup "aptos:0xabc" 1]
      ∧ (AptosApiScan tableLib (faultyEnv 1) demoStore demoWallet
          (okResponse [twoDepositTx])).recovered = some (.error "store unavailable")
      ∧ Effect.enqueue demoOrder 5 ∉ (AptosApiScan tableLib (faultyEnv 1) demoStore demoWallet
          (okResponse [twoDepositTx])).trace
      ∧ Effect.enqueue demoOrder 5 ∈ (AptosApiScan tableLib (faultyEnv 1) demoStore demoWallet
          (okResponse [{ twoDepositTx with FungibleAssetActivities := [demoDeposit] }])).trace
      := by
  refine ⟨by rfl, by decide, by decide, by decide, by decide⟩

/-- C6, amended: when the scan reaches an activity whose order lookup (by wallet and amount,
or by trade id) or whose settlement write returns an error, it abandons that activity and
every later activity and transaction of the response: the scan of the response is the scan
of the response cut right after the failing activity; the calls made before the failure
stand, the error is caught by the deferred recover of `AptosApiScan` and does not leave
the scan. -/
theorem store_error_aborts_scan (lib : GoLib) (env : Env σ) (token : String) (st : σ)
    (pre post : List AccountTransaction) (tx : AccountTransaction) (ts : Int)
    (apre apost : List Activity) (act : Activity) (e : String)
    (hlock : env.IsWalletLocked st ("aptos:" ++ token) = true)
    (hpre : (scanTransactions lib env token st pre).fault = none)
    (hts : parseTimestamp lib tx = .ok ts)
    (hapre : (scanActivities lib env token tx ts
      (scanTransactions lib env token st pre).st apre).fault = none)
    (hfail : activityFails lib env token tx ts
      (scanActivities lib env token tx ts (scanTransactions lib env token st pre).st apre).st
      act e) :
    AptosApiScan lib env st token
        (.resp 200 (.ok ⟨pre ++ { tx with FungibleAssetActivities := apre ++ act :: apost }
          :: post⟩))
      = AptosApiScan lib env st token
        (.resp 200 (.ok ⟨pre ++ [{ tx with FungibleAssetActivities := apre ++ [act] }]⟩))
      ∧ (AptosApiScan lib env st token
          (.resp 200 (.ok ⟨pre ++ { tx with FungibleAssetActivities := apre ++ act :: apost }
            :: post⟩))).trace
        = .post AptosGraphqlUrl token :: ((scanTransactions lib env token st pre).trace
            ++ ((scanActivities lib env token tx ts
                  (scanTransactions lib env token st pre).st apre).trace
              ++ (scanActivity lib env token tx ts
                  (scanActivities lib env token tx ts
                    (scanTransactions lib env token st pre).st apre).st act).trace))
      ∧ (AptosApiScan lib env st token
          (.resp 200 (.ok ⟨pre ++ { tx with FungibleAssetActivities := apre ++ act :: apost }
            :: post⟩))).recovered = some (.error e)
      ∧ (AptosApiScan lib env st token
          (.resp 200 (.ok ⟨pre ++ { tx with FungibleAssetActivities := apre ++ act :: apost }
            :: post⟩))).propagated = none := by
  have hstep := scanActivity_fault_of_fails lib env token tx ts _ act e hfail
  -- the activities up to the failing one
  have hY : scanActivities lib env token tx ts (scanTransactions lib env token st pre).st
      (apre ++ [act])
      = ⟨(scanActivities lib env token tx ts
            (scanTransactions lib env token st pre).st apre).trace
          ++ (scanActivity lib env token tx ts
            (scanActivities lib env token tx ts
              (scanTransactions lib env token st pre).st apre).st act).trace,
        (scanActivities lib env token tx ts
            (scanTransactions lib env token st pre).st apre).logs
          ++ (scanActivity lib env token tx ts
            (scanActivities lib env token tx ts
              (scanTransactions lib env token st pre).st apre).st act).logs,
        (scanActivity lib env token tx ts
            (scanActivities lib env token tx ts
              (scanTransactions lib env token st pre).st apre).st act).st,
        some (.error e)⟩ := by
    rw [scanActivities_append, andThen_of_ok _ _ hapre]
    simp only [scanActivities, andThen_of_fault _ _ _ hstep, hstep]
  have hYf : (scanActivities lib env token tx ts (scanTransactions lib env token st pre).st
      (apre ++ [act])).fault = some (.error e) := by rw [hY]
  have hfull : scanActivities lib env token tx ts (scanTransactions lib env token st pre).st
      (apre ++ act :: apost)
      = scanActivities lib env token tx ts (scanTransactions lib env token st pre).st
        (apre ++ [act]) := by
    have := scanActivities_cut lib env token tx ts (apre ++ [act]) apost _ _ hYf
    simpa using this
  -- the two transactions
  have hC : scanTransaction lib env token (scanTransactions lib env token st pre).st
      { tx with FungibleAssetActivities := apre ++ [act] }
      = scanActivities lib env token tx ts (scanTransactions lib env token st pre).st
        (apre ++ [act]) := by
    have hp : parseTimestamp lib { tx with FungibleAssetActivities := apre ++ [act] }
        = .ok ts := hts
    unfold scanTransaction
    rw [hp]
    exact scanActivities_congr_tx lib env token tx
      { tx with FungibleAssetActivities := apre ++ [act] } rfl ts _ _
  have hF : scanTransaction lib env token (scanTransactions lib env token st pre).st
      { tx with FungibleAssetActivities := apre ++ act :: apost }
      = scanActivities lib env token tx ts (scanTransactions lib env token st pre).st
        (apre ++ [act]) := by
    have hp : parseTimestamp lib { tx with FungibleAssetActivities := apre ++ act :: apost }
        = .ok ts := hts
    unfold scanTransaction
    rw [hp, ← hfull]
    exact scanActivities_congr_tx lib env token tx
      { tx with FungibleAssetActivities := apre ++ act :: apost } rfl ts _ _
  -- the two transaction lists
  have hcutl : scanTransactions lib env token st
      (pre ++ [{ tx with FungibleAssetActivities := apre ++ [act] }])
      = ⟨(scanTransactions lib env token st pre).trace
          ++ (scanActivities lib env token tx ts (scanTransactions lib env token st pre).st
            (apre ++ [act])).trace,
        (scanTransactions lib env token st pre).logs
          ++ (scanActivities lib env token tx ts (scanTransactions lib env token st pre).st
            (apre ++ [act])).logs,
        (scanActivities lib env token tx ts (scanTransactions lib env token st pre).st
            (apre ++ [act])).st,
        some (.error e)⟩ := by
    rw [scanTransactions_append, andThen_of_ok _ _ hpre]
    simp only [scanTransactions, hC, andThen_of_fault _ _ _ hYf, hYf]
  have hfulll : scanTransactions lib env token st
      (pre ++ { tx with FungibleAssetActivities := apre ++ act :: apost } :: post)
      = scanTransactions lib env token st
        (pre ++ [{ tx with FungibleAssetActivities := apre ++ [act] }]) := by
    rw [hcutl, scanTransactions_append, andThen_of_ok _ _ hpre]
    simp only [scanTransactions, hF, andThen_of_fault _ _ _ hYf, hYf]
  have hbody : scanBody lib env st token
      (.resp 200 (.ok ⟨pre ++ { tx with FungibleAssetActivities := apre ++ act :: apost }
        :: post⟩))
      = scanBody lib env st token
        (.resp 200 (.ok ⟨pre ++ [{ tx with FungibleAssetActivities := apre ++ [act] }]⟩)) := by
    rw [scanBody_ok lib env st token _ hlock, scanBody_ok lib env st token _ hlock, hfulll]
  refine ⟨by unfold AptosApiScan; rw [hbody], ?_, ?_, AptosApiScan_propagated _ _ _ _ _⟩
  · show (scanBody lib env st token _).trace = _
    rw [hbody, scanBody_ok lib env st token _ hlock, hcutl, hY]
  · show (scanBody lib env st token _).fault = _
    rw [hbody, scanBody_ok lib env st token _ hlock, hcutl]

/-- The claim C6, amended, at the store whose lookup for the amount 1 fails: the deposit of
10.5 that follows the failing deposit is not processed. -/
theorem store_error_aborts_scan_witness :
    (faultyEnv 1).IsWalletLocked demoStore ("aptos:" ++ demoWallet) = true
      ∧ (scanTransactions tableLib (faultyEnv 1) demoWallet demoStore []).fault = none
      ∧ parseTimestamp tableLib demoTx = .ok 1704067205000
      ∧ (scanActivities tableLib (faultyEnv 1) demoWallet demoTx 1704067205000
          (scanTransactions tableLib (faultyEnv 1) demoWallet demoStore []).st []).fault = none
      ∧ activityFails tableLib (faultyEnv 1) demoWallet demoTx 1704067205000 demoStore
          unitDeposit "store unavailable"
      ∧ AptosApiScan tableLib (faultyEnv 1) demoStore demoWallet
          (.resp 200 (.ok ⟨[] ++ { demoTx with
            FungibleAssetActivities := [] ++ unitDeposit :: [demoDeposit] } :: []⟩))
        = AptosApiScan tableLib (faultyEnv 1) demoStore demoWallet
          (.resp 200 (.ok ⟨[] ++ [{ demoTx with
            FungibleAssetActivities := [] ++ [unitDeposit] }]⟩)) :=
  ⟨by decide, by rfl, by rfl, by rfl,
    ⟨by decide, ⟨10000000000000000, -16⟩, by decide, Or.inl (by rfl)⟩,
    (store_error_aborts_scan tableLib (faultyEnv 1) demoWallet demoStore [] [] demoTx
      1704067205000 [] [demoDeposit] unitDeposit "store unavailable" (by decide) (by rfl)
      (by rfl) (by rfl)
      ⟨by decide, ⟨10000000000000000, -16⟩, by decide, Or.inl (by rfl)⟩).1⟩

theorem mem_andThen_trace (r : Res σ) (k : σ → Res σ) (e : Effect)
    (h : e ∈ (r.andThen k).trace) : e ∈ r.trace ∨ e ∈ (k r.st).trace := by
  unfold Res.andThen at h
  cases hr : r.fault with
  | some f => simp only [hr] at h; exact Or.inl h
  | none => simp only [hr, List.mem_append] at h; exact h

theorem scanActivities_forall (lib : GoLib) (env : Env σ) (token : String)
    (tx : AccountTransaction) (ts : Int) (Q : Effect → Prop) (acts : List Activity)
    (h : ∀ act ∈ acts, ∀ st, ∀ e ∈ (scanActivity lib env token tx ts st act).trace, Q e)
    (st : σ) : ∀ e ∈ (scanActivities lib env token tx ts st acts).trace, Q e := by
  induction acts generalizing st with
  | nil => intro e he; simp [scanActivities] at he
  | cons a rest ih =>
    intro e he
    rcases mem_andThen_trace _ _ e he with h1 | h1
    · exact h a (List.mem_cons_self _ _) st e h1
    · exact ih (fun act hact => h act (List.mem_cons_of_mem _ hact)) _ e h1

theorem scanTransactions_forall (lib : GoLib) (env : Env σ) (token : String)
    (Q : Effect → Prop) (txs : List AccountTransaction)
    (h : ∀ tx ∈ txs, ∀ act ∈ tx.FungibleAssetActivities, ∀ ts st,
      ∀ e ∈ (scanActivity lib env token tx ts st act).trace, Q e)
    (st : σ) : ∀ e ∈ (scanTransactions lib env token st txs).trace, Q e := by
  induction txs generalizing st with
  | nil => intro e he; simp [scanTransactions] at he
  | cons tx rest ih =>
    intro e he
    rcases mem_andThen_trace _ _ e he with h1 | h1
    · unfold scanTransaction at h1
      cases hp : parseTimestamp lib tx with
      | error logs => simp [hp] at h1
      | ok ts =>
        simp only [hp] at h1
        exact scanActivities_forall lib env token tx ts Q _
          (fun act hact s => h tx (List.mem_cons_self _ _) act hact ts s) st e h1
    · exact ih (fun t ht => h t (List.mem_cons_of_mem _ ht)) _ e h1

theorem scanBody_forall (lib : GoLib) (env : Env σ) (token : String) (Q : Effect → Prop)
    (st : σ) (http : HttpResult) (hpost : Q (.post AptosGraphqlUrl token))
    (h : ∀ act ∈ responseActivities http, ∀ tx ts s,
      ∀ e ∈ (scanActivity lib env token tx ts s act).trace, Q e) :
    ∀ e ∈ (scanBody lib env st token http).trace, Q e := by
  intro e he
  unfold scanBody at he
  by_cases hlock : env.IsWalletLocked st ("aptos:" ++ token) = true
  · simp only [hlock, Bool.not_true, Bool.false_eq_true, if_false] at he
    cases http with
    | err x => simp at he; rw [he]; exact hpost
    | resp code body =>
      by_cases hc : code = 200
      · cases body with
        | error x => simp [hc] at he; rw [he]; exact hpost
        | ok r =>
          simp only [hc, ne_eq, not_true_eq_false, if_false] at he
          split at he
          · simp at he; rw [he]; exact hpost
          · simp only [List.mem_cons] at he
            rcases he with rfl | he
            · exact hpost
            · refine scanTransactions_forall lib env token Q _ ?_ st e he
              intro tx htx act hact ts s
              refine h act ?_ tx ts s
              simp only [responseActivities, List.mem_flatten, List.mem_map]
              exact ⟨_, ⟨tx, htx, rfl⟩, hact⟩
      · simp [hc] at he; rw [he]; exact hpost
  · simp [hlock] at he

/-- C8, as stated, fails: the response may carry a negative amount of minor units, which no
filter rejects; for the amount `-500000` the scan looks the order up under the key `-1/2`,
which is negative. -/
theorem negative_amount_counterexample :
    passesFilters tableLib demoWallet negativeDeposit = true
      ∧ (AptosApiScan tableLib storeEnv demoStore demoWallet
          (okResponse [{ demoTx with FungibleAssetActivities := [negativeDeposit] }])).trace
          = [.post AptosGraphqlUrl demoWallet, .lookup "aptos:0xabc" (mkRat (-1) 2)]
      ∧ mkRat (-1) 2 < 0 := by
  refine ⟨by decide, by decide, by decide⟩

/-- C8, amended: every amount the scan uses as a lookup key or places in a settlement request
is the float of the decimal `Amount / 1000000` of an activity of the response that passed
the filters; with a float conversion that keeps non-negative decimals non-negative, that
amount is non-negative whenever the `Amount` of the activity is. The scan itself does not
reject a negative `Amount`. -/
theorem amount_follows_activity (lib : GoLib) (env : Env σ) (st : σ) (token : String)
    (http : HttpResult)
    (hconv : ∀ d : Decimal, 0 ≤ d.toRat → 0 ≤ lib.InexactFloat64 d) :
    ∀ e ∈ (AptosApiScan lib env st token http).trace, ∀ a, effectAmount e = some a →
      ∃ act ∈ responseActivities http, passesFilters lib token act = true
        ∧ ∃ d, amountDecimal act.Amount = some d ∧ d.toRat = (act.Amount : ℚ) / 1000000
          ∧ a = lib.InexactFloat64 d ∧ (0 ≤ act.Amount → 0 ≤ a) := by
  show ∀ e ∈ (scanBody lib env st token http).trace, _
  refine scanBody_forall lib env token _ st http ?_ ?_
  · intro a ha
    simp [effectAmount] at ha
  · intro act hact tx ts s e he a ha
    cases hp : passesFilters lib token act with
    | false =>
      rw [scanActivity_of_not_passes lib env token tx ts s act hp] at he
      simp at he
    | true =>
      have hnn : 0 ≤ act.Amount →
          0 ≤ lib.InexactFloat64 ⟨act.Amount * 10 ^ 10, -16⟩ := by
        intro h0
        apply hconv
        rw [toRat_scaled]
        have : (0 : ℚ) ≤ (act.Amount : ℚ) := by exact_mod_cast h0
        positivity
      refine ⟨act, hact, hp, _, amountDecimal_eq act.Amount, toRat_scaled act.Amount, ?_⟩
      rw [scanActivity_of_passes lib env token tx ts s act _ hp
        (amountDecimal_eq act.Amount)] at he
      have key : a = lib.InexactFloat64 ⟨act.Amount * 10 ^ 10, -16⟩ := by
        repeat' split at he
        all_goals
          simp only [List.mem_cons, List.mem_singleton, List.not_mem_nil, or_false] at he
          rcases he with rfl | rfl | rfl | rfl | rfl <;>
            simp_all [effectAmount]
      exact ⟨key, fun h0 => key ▸ hnn h0⟩

/-- The claim C8, amended, in scenario A: the lookup key `21/2` comes from the deposit of
`10500000` minor units. -/
theorem amount_follows_activity_witness :
    (∀ d : Decimal, 0 ≤ d.toRat → 0 ≤ tableLib.InexactFloat64 d)
      ∧ ∃ act ∈ responseActivities (okResponse [demoTx]),
          passesFilters tableLib demoWallet act = true
            ∧ ∃ d, amountDecimal act.Amount = some d ∧ d.toRat = (act.Amount : ℚ) / 1000000
              ∧ mkRat 21 2 = tableLib.InexactFloat64 d ∧ (0 ≤ act.Amount → 0 ≤ mkRat 21 2) :=
  ⟨fun _ h => h,
    amount_follows_activity tableLib storeEnv demoStore demoWallet (okResponse [demoTx])
      (fun _ h => h) (.lookup "aptos:0xabc" (mkRat 21 2)) (by decide) (mkRat 21 2) rfl⟩

/-! ### The goroutines of a run -/

theorem storeEnv_getOrder (st : Store) (t : String) (o : Order)
    (h : storeEnv.GetOrderInfoByTradeId st t = .ok o) : o.TradeId = t := by
  simp only [storeEnv] at h
  cases hf : st.orders.find? (fun o => o.TradeId == t) with
  | none => simp [hf] at h
  | some o2 =>
    simp only [hf, Except.ok.injEq] at h
    subst h
    simpa using List.find?_some hf

theorem storeEnv_processing_ok (st st1 : Store) (req : OrderProcessingRequest)
    (h : storeEnv.OrderProcessing st req = (none, st1)) :
    (∃ o ∈ st.orders, o.TradeId = req.TradeId ∧ o.Status = .pending)
      ∧ st1.orders = st.orders.map (markSettled req.TradeId) := by
  simp only [storeEnv] at h
  cases hf : st.orders.find? (fun o => o.TradeId == req.TradeId) with
  | none => simp [hf] at h
  | some o =>
    simp only [hf] at h
    by_cases hp : o.Status = .pending
    · simp only [hp, if_true, Prod.mk.injEq, true_and] at h
      subst h
      exact ⟨⟨o, List.mem_of_find?_eq_some hf, by simpa using List.find?_some hf, hp⟩, rfl⟩
    · simp [hp] at h

theorem storeEnv_processing_err (st st1 : Store) (req : OrderProcessingRequest) (e : String)
    (h : storeEnv.OrderProcessing st req = (some e, st1)) : st1 = st := by
  simp only [storeEnv] at h
  cases hf : st.orders.find? (fun o => o.TradeId == req.TradeId) with
  | none => simp [hf] at h; exact h.2.symm
  | some o =>
    simp only [hf] at h
    by_cases hp : o.Status = .pending
    · simp [hp] at h
    · simp [hp] at h; exact h.2.symm

theorem settledIn_after (st st1 : Store) (ids : List String) (t : String)
    (h : settledIn st ids) (hst : st1.orders = st.orders.map (markSettled t)) :
    settledIn st1 (ids ++ [t]) := by
  intro t2 ht2 o ho hot
  rw [hst] at ho
  obtain ⟨o0, ho0, rfl⟩ := List.mem_map.mp ho
  unfold markSettled at hot ⊢
  by_cases heq : o0.TradeId = t
  · simp [heq]
  · simp only [heq, if_false] at hot ⊢
    rcases List.mem_append.mp ht2 with hin | hin
    · exact h t2 hin o0 ho0 hot
    · simp only [List.mem_singleton] at hin
      exact absurd (hot.trans hin) heq

theorem settlesFresh_of_no_settlement (lib : GoLib) (ids : List String) (trace : List Effect)
    (st : Store) (hin : settledIn st ids) (hnd : ids.Nodup)
    (h : trace.filter isSettlementEffect = []) : settlesFresh lib ids trace st :=
  ⟨[], by simp [h, settlementBlocks], by simp, by simpa using hnd, by simpa using hin⟩

theorem scanActivity_settlesFresh (lib : GoLib) (token : String) (tx : AccountTransaction)
    (ts : Int) (st : Store) (act : Activity) (ids : List String)
    (hin : settledIn st ids) (hnd : ids.Nodup) :
    settlesFresh lib ids (scanActivity lib storeEnv token tx ts st act).trace
      (scanActivity lib storeEnv token tx ts st act).st := by
  cases hp : passesFilters lib token act with
  | false =>
    rw [scanActivity_of_not_passes lib storeEnv token tx ts st act hp]
    exact settlesFresh_of_no_settlement lib ids _ _ hin hnd rfl
  | true =>
    rw [scanActivity_of_passes lib storeEnv token tx ts st act _ hp
      (amountDecimal_eq act.Amount)]
    cases hl : storeEnv.GetTradeIdByWalletAddressAndAmount st ("aptos:" ++ token)
        (lib.InexactFloat64 ⟨act.Amount * 10 ^ 10, -16⟩) with
    | error e => exact settlesFresh_of_no_settlement lib ids _ _ hin hnd rfl
    | ok tradeId =>
      by_cases hne : tradeId = ""
      · simp only [hne, if_true]
        exact settlesFresh_of_no_settlement lib ids _ _ hin hnd rfl
      · simp only [hne, if_false]
        cases ho : storeEnv.GetOrderInfoByTradeId st tradeId with
        | error e => exact settlesFresh_of_no_settlement lib ids _ _ hin hnd rfl
        | ok order =>
          by_cases hts : ts < order.CreatedAt.TimestampWithMillisecond
          · simp only [hts, if_true]
            exact settlesFresh_of_no_settlement lib ids _ _ hin hnd rfl
          · simp only [hts, if_false]
            rcases hop : storeEnv.OrderProcessing st
                ⟨"aptos:" ++ token, tradeId, lib.InexactFloat64 ⟨act.Amount * 10 ^ 10, -16⟩,
                  fmtInt tx.TransactionVersion⟩ with ⟨err, st1⟩
            cases err with
            | some e =>
              have hst := storeEnv_processing_err st st1 _ e hop
              subst hst
              exact settlesFresh_of_no_settlement lib ids _ _ hin hnd rfl
            | none =>
              obtain ⟨⟨o, hmem, hot, hpend⟩, hst⟩ := storeEnv_processing_ok st st1 _ hop
              have hfresh : tradeId ∉ ids := fun hc => hin tradeId hc o hmem hot hpend
              refine ⟨[⟨⟨"aptos:" ++ token, tradeId,
                  lib.InexactFloat64 ⟨act.Amount * 10 ^ 10, -16⟩,
                  fmtInt tx.TransactionVersion⟩, order,
                  notifyMessage lib order ("aptos:" ++ token) (storeEnv.Now st1)
                    tx.TransactionVersion⟩], rfl, ?_, ?_, ?_⟩
              · intro s hs
                simp only [List.mem_singleton] at hs
                subst hs
                exact ⟨storeEnv_getOrder st tradeId order ho, _, _, _, rfl⟩
              · simp only [List.map_cons, List.map_nil]
                exact List.nodup_append.mpr ⟨hnd, List.nodup_singleton _,
                  by
                    intro a ha hb
                    simp only [List.mem_singleton] at hb
                    exact hfresh (hb ▸ ha)⟩
              · exact settledIn_after st st1 ids tradeId hin hst

theorem settlesFresh_andThen (lib : GoLib) (ids : List String) (r : Res Store)
    (k : Store → Res Store) (hr : settlesFresh lib ids r.trace r.st)
    (hk : ∀ ids2 st2, settledIn st2 ids2 → ids2.Nodup →
      settlesFresh lib ids2 (k st2).trace (k st2).st) :
    settlesFresh lib ids (r.andThen k).trace (r.andThen k).st := by
  unfold Res.andThen
  cases hf : r.fault with
  | some f => exact hr
  | none =>
    obtain ⟨S1, h1, hw1, hn1, hs1⟩ := hr
    obtain ⟨S2, h2, hw2, hn2, hs2⟩ := hk _ r.st hs1 hn1
    refine ⟨S1 ++ S2, ?_, ?_, ?_, ?_⟩
    · simp [List.filter_append, h1, h2, settlementBlocks]
    · intro s hs
      rcases List.mem_append.mp hs with hs | hs
      · exact hw1 s hs
      · exact hw2 s hs
    · simpa [List.append_assoc] using hn2
    · simpa [List.append_assoc] using hs2

theorem scanActivities_settlesFresh (lib : GoLib) (token : String) (tx : AccountTransaction)
    (ts : Int) (acts : List Activity) (st : Store) (ids : List String)
    (hin : settledIn st ids) (hnd : ids.Nodup) :
    settlesFresh lib ids (scanActivities lib storeEnv token tx ts st acts).trace
      (scanActivities lib storeEnv token tx ts st acts).st := by
  induction acts generalizing st ids with
  | nil => exact settlesFresh_of_no_settlement lib ids _ _ hin hnd rfl
  | cons a rest ih =>
    exact settlesFresh_andThen lib ids _ _
      (scanActivity_settlesFresh lib token tx ts st a ids hin hnd)
      (fun ids2 st2 h1 h2 => ih st2 ids2 h1 h2)

theorem scanTransactions_settlesFresh (lib : GoLib) (token : String)
    (txs : List AccountTransaction) (st : Store) (ids : List String)
    (hin : settledIn st ids) (hnd : ids.Nodup) :
    settlesFresh lib ids (scanTransactions lib storeEnv token st txs).trace
      (scanTransactions lib storeEnv token st txs).st := by
  induction txs generalizing st ids with
  | nil => exact settlesFresh_of_no_settlement lib ids _ _ hin hnd rfl
  | cons tx rest ih =>
    refine settlesFresh_andThen lib ids _ _ ?_ (fun ids2 st2 h1 h2 => ih st2 ids2 h1 h2)
    unfold scanTransaction
    cases hp : parseTimestamp lib tx with
    | error logs => exact settlesFresh_of_no_settlement lib ids _ _ hin hnd rfl
    | ok ts => exact scanActivities_settlesFresh lib token tx ts _ st ids hin hnd

theorem AptosApiScan_settlesFresh (lib : GoLib) (token : String) (http : HttpResult)
    (st : Store) (ids : List String) (hin : settledIn st ids) (hnd : ids.Nodup) :
    settlesFresh lib ids (AptosApiScan lib storeEnv st token http).trace
      (AptosApiScan lib storeEnv st token http).st := by
  show settlesFresh lib ids (scanBody lib storeEnv st token http).trace
    (scanBody lib storeEnv st token http).st
  unfold scanBody
  by_cases hlock : storeEnv.IsWalletLocked st ("aptos:" ++ token) = true
  · simp only [hlock, Bool.not_true, Bool.false_eq_true, if_false]
    cases http with
    | err x => exact settlesFresh_of_no_settlement lib ids _ _ hin hnd rfl
    | resp code body =>
      by_cases hc : code = 200
      · cases body with
        | error x =>
          simp only [hc, ne_eq, not_true_eq_false, if_false]
          exact settlesFresh_of_no_settlement lib ids _ _ hin hnd rfl
        | ok r =>
          simp only [hc, ne_eq, not_true_eq_false, if_false]
          split
          · exact settlesFresh_of_no_settlement lib ids _ _ hin hnd rfl
          · obtain ⟨S, h1, h2, h3, h4⟩ :=
              scanTransactions_settlesFresh lib token r.AccountTransactions st ids hin hnd
            exact ⟨S, by simpa [List.filter_cons, isSettlementEffect] using h1, h2, h3, h4⟩
      · simp only [ne_eq, hc, not_false_eq_true, if_true]
        exact settlesFresh_of_no_settlement lib ids _ _ hin hnd rfl
  · simp only [hlock, Bool.not_false, if_true]
    exact settlesFresh_of_no_settlement lib ids _ _ hin hnd rfl

theorem runScans_settlesFresh (lib : GoLib) (scans : List (String × HttpResult))
    (st : Store) (ids : List String) (hin : settledIn st ids) (hnd : ids.Nodup) :
    settlesFresh lib ids (runScans lib storeEnv st scans).1
      (runScans lib storeEnv st scans).2 := by
  induction scans generalizing st ids with
  | nil => exact settlesFresh_of_no_settlement lib ids _ _ hin hnd rfl
  | cons p rest ih =>
    obtain ⟨token, http⟩ := p
    obtain ⟨S1, h1, hw1, hn1, hs1⟩ := AptosApiScan_settlesFresh lib token http st ids hin hnd
    obtain ⟨S2, h2, hw2, hn2, hs2⟩ := ih _ _ hs1 hn1
    refine ⟨S1 ++ S2, ?_, ?_, ?_, ?_⟩
    · simp [runScans, List.filter_append, h1, h2, settlementBlocks]
    · intro s hs
      rcases List.mem_append.mp hs with hs | hs
      · exact hw1 s hs
      · exact hw2 s hs
    · simpa [List.append_assoc] using hn2
    · simpa [runScans, List.append_assoc] using hs2

theorem countP_settlementBlocks_transition (t : String) (S : List Settlement) :
    (settlementBlocks S).countP (isTransitionOf t)
      = (S.map (fun s => s.req.TradeId)).count t := by
  induction S with
  | nil => rfl
  | cons s rest ih =>
    have hrec : settlementBlocks (s :: rest) = s.block ++ settlementBlocks rest := by
      simp [settlementBlocks]
    rw [hrec, List.countP_append, ih, List.map_cons, List.count_cons]
    simp only [Settlement.block, List.countP_cons, List.countP_nil, isTransitionOf]
    by_cases h : s.req.TradeId = t
    · simp [h]
      omega
    · simp [h]

theorem countP_settlementBlocks_job (lib : GoLib) (t : String) (S : List Settlement)
    (hw : ∀ s ∈ S, s.ofOneTrade lib) :
    (settlementBlocks S).countP (isJobOf t) = (S.map (fun s => s.req.TradeId)).count t := by
  induction S with
  | nil => rfl
  | cons s rest ih =>
    have hrec : settlementBlocks (s :: rest) = s.block ++ settlementBlocks rest := by
      simp [settlementBlocks]
    have hs : s.order.TradeId = s.req.TradeId := (hw s (List.mem_cons_self _ _)).1
    rw [hrec, List.countP_append, ih (fun x hx => hw x (List.mem_cons_of_mem _ hx)),
      List.map_cons, List.count_cons]
    simp only [Settlement.block, List.countP_cons, List.countP_nil, isJobOf, hs]
    by_cases h : s.req.TradeId = t
    · simp [h]
      omega
    · simp [h]

theorem countP_settlement_view (p : Effect → Bool) (trace : List Effect)
    (hp : ∀ e, p e = true → isSettlementEffect e = true) :
    trace.countP p = (trace.filter isSettlementEffect).countP p := by
  rw [List.countP_filter]
  congr 1
  funext e
  cases h : p e with
  | false => simp
  | true => simp [hp e h]

theorem isTransitionOf_settlement (t : String) (e : Effect)
    (h : isTransitionOf t e = true) : isSettlementEffect e = true := by
  cases e with
  | orderProcessing req err =>
    cases err with
    | none => rfl
    | some x => simp [isTransitionOf] at h
  | post a b => simp [isTransitionOf] at h
  | lookup a b => simp [isTransitionOf] at h
  | getOrder a => simp [isTransitionOf] at h
  | enqueue a b => simp [isTransitionOf] at h
  | notify a => simp [isTransitionOf] at h

theorem isJobOf_settlement (t : String) (e : Effect)
    (h : isJobOf t e = true) : isSettlementEffect e = true := by
  cases e with
  | enqueue a b => rfl
  | orderProcessing req err => simp [isJobOf] at h
  | post a b => simp [isJobOf] at h
  | lookup a b => simp [isJobOf] at h
  | getOrder a => simp [isJobOf] at h
  | notify a => simp [isJobOf] at h

/-- C3: with the order store as explicit state (the lookup by wallet and amount returns only
pending orders; the transition succeeds for a pending order and marks it settled, and
reports an error otherwise), for every library, every initial store and every sequence of
scans with their API responses (so also when the same deposit is duplicated inside one
response or seen again in a later scan): the successful transitions, dispatch jobs and
notifications of the whole run are the blocks of a list of settlements whose trade ids are
pairwise distinct, each block made of one transition, one dispatch job with retry budget 5
for the order of that trade and one notification rendered for that order. Hence, for every
trade id, at most one transition is committed, at most one dispatch job is enqueued and at
most one notification is emitted. -/
theorem settlement_at_most_once (lib : GoLib) (st : Store)
    (scans : List (String × HttpResult)) :
    ∃ S : List Settlement,
      (runScans lib storeEnv st scans).1.filter isSettlementEffect = settlementBlocks S
        ∧ (∀ s ∈ S, s.ofOneTrade lib)
        ∧ (S.map (fun s => s.req.TradeId)).Nodup
        ∧ ∀ t : String,
            (runScans lib storeEnv st scans).1.countP (isTransitionOf t) ≤ 1
              ∧ (runScans lib storeEnv st scans).1.countP (isJobOf t) ≤ 1
              ∧ (S.filter (fun s => s.order.TradeId == t)).length ≤ 1 := by
  obtain ⟨S, h1, h2, h3, _⟩ := runScans_settlesFresh lib scans st []
    (by intro t ht; cases ht) List.nodup_nil
  simp only [List.nil_append] at h3
  refine ⟨S, h1, h2, h3, ?_⟩
  intro t
  have hcount : (S.map (fun s => s.req.TradeId)).count t ≤ 1 :=
    List.nodup_iff_count_le_one.mp h3 t
  refine ⟨?_, ?_, ?_⟩
  · rw [countP_settlement_view (isTransitionOf t) _ (isTransitionOf_settlement t), h1,
      countP_settlementBlocks_transition]
    exact hcount
  · rw [countP_settlement_view (isJobOf t) _ (isJobOf_settlement t), h1,
      countP_settlementBlocks_job lib t S h2]
    exact hcount
  · have hfilter : S.filter (fun s => s.order.TradeId == t)
        = S.filter (fun s => s.req.TradeId == t) := by
      apply List.filter_congr
      intro s hs
      rw [(h2 s hs).1]
    rw [hfilter, ← List.countP_eq_length_filter]
    have : (S.map (fun s => s.req.TradeId)).count t
        = S.countP (fun s => s.req.TradeId == t) := by
      rw [List.count, List.countP_map]
      rfl
    rw [← this]
    exact hcount

/-- The claim C3 on the example: the deposit is held twice in the first response and seen
again by a second scan; the order `T1` is settled by one block of three calls. -/
theorem settlement_at_most_once_witness :
    (∃ S : List Settlement,
      (runScans tableLib storeEnv busyStore repeatedScans).1.filter isSettlementEffect
          = settlementBlocks S
        ∧ (∀ s ∈ S, s.ofOneTrade tableLib)
        ∧ (S.map (fun s => s.req.TradeId)).Nodup
        ∧ ∀ t : String,
            (runScans tableLib storeEnv busyStore repeatedScans).1.countP (isTransitionOf t) ≤ 1
              ∧ (runScans tableLib storeEnv busyStore repeatedScans).1.countP (isJobOf t) ≤ 1
              ∧ (S.filter (fun s => s.order.TradeId == t)).length ≤ 1)
      ∧ (runScans tableLib storeEnv busyStore repeatedScans).1.filter isSettlementEffect
          = [.orderProcessing ⟨"aptos:0xabc", "T1", mkRat 21 2, "987654321"⟩ none,
              .enqueue demoOrder 5,
              .notify (notifyMessage tableLib demoOrder "aptos:0xabc" busyStore.now 987654321)]
      ∧ (runScans tableLib storeEnv busyStore repeatedScans).1.countP
          (fun e => e == .lookup "aptos:0xabc" (mkRat 21 2)) = 3 :=
  ⟨settlement_at_most_once tableLib busyStore repeatedScans, by rfl, by rfl⟩


end Proofs

end Aptos
